import Mathlib

/-!
Verification development for the AionUi Channel Gateway.

The definitions below are a shallow embedding of the gateway subsystem:
the pairing service, the session registry, the plugin lifecycle contract,
the plugin manager and the action executor with its streaming throttle.
Stateful TypeScript classes become explicit state-passing functions;
machine time (Date.now) becomes an explicit natural-number parameter;
randomness (uuid, crypto.randomBytes, Math.random) becomes explicit
fresh-value parameters; fallible collaborators return result records.
-/

namespace AionUi

/-- Result shape of every persistence call (IQueryResult in the source):
a success flag, optional data and an optional error string.  A TS value
that can be null or undefined is modelled as an Option, so the source
truthiness test on data corresponds to Option.isSome. -/
structure IQueryResult (α : Type) where
  success : Bool
  data : Option α
  error : Option String
deriving DecidableEq

/-- Status of a pairing request: pending | approved | rejected | expired. -/
inductive PairingStatus
  | pending
  | approved
  | rejected
  | expired
deriving DecidableEq

/-- The string rendering of a pairing status, as stored and as spliced
into user-facing error messages by the source. -/
def PairingStatus.text : PairingStatus → String
  | .pending => "pending"
  | .approved => "approved"
  | .rejected => "rejected"
  | .expired => "expired"

/-- Row of the assistant_pairing_codes table (IChannelPairingRequest). -/
structure IChannelPairingRequest where
  code : String
  platformUserId : String
  platformType : String
  displayName : Option String
  requestedAt : Nat
  expiresAt : Nat
  status : PairingStatus
deriving DecidableEq

/-- Row of the assistant_users table (IChannelUser). -/
structure IChannelUser where
  id : String
  platformUserId : String
  platformType : String
  displayName : Option String
  authorizedAt : Nat
deriving DecidableEq

/-- The persisted store seen by the pairing service: the pairing-code
table (primary key: code) and the authorized-user table (primary key:
id).  channelUserInsertError injects the documented failure mode of the
persistence layer (the sqlite INSERT throwing, caught and returned as a
success-false result by createChannelUser). -/
structure Db where
  pairingCodes : List IChannelPairingRequest
  channelUsers : List IChannelUser
  channelUserInsertError : Option String
deriving DecidableEq

/-- Pairing-code TTL: 10 minutes in milliseconds (PAIRING_CONFIG.CODE_EXPIRY_MS). -/
def PAIRING_CODE_EXPIRY_MS : Nat := 10 * 60 * 1000

/-- db.getPendingPairingRequests: SELECT rows WHERE status = pending AND
expires_at > now.  The ORDER BY requested_at DESC of the source only
permutes the row set; rows are returned here in table order. -/
def dbGetPendingPairingRequests (db : Db) (now : Nat) : IQueryResult (List IChannelPairingRequest) :=
  ⟨true, some (db.pairingCodes.filter (fun r => r.status == PairingStatus.pending && decide (r.expiresAt > now))), none⟩

/-- db.getPairingRequestByCode: SELECT the row WHERE code = code (code is
the primary key; the first match is the only match on a well-formed table). -/
def dbGetPairingRequestByCode (db : Db) (code : String) : IQueryResult IChannelPairingRequest :=
  ⟨true, db.pairingCodes.find? (fun r => r.code == code), none⟩

/-- db.createPairingRequest: INSERT, failing on a primary-key conflict. -/
def dbCreatePairingRequest (db : Db) (request : IChannelPairingRequest) :
    IQueryResult IChannelPairingRequest × Db :=
  if db.pairingCodes.any (fun r => r.code == request.code) then
    (⟨false, none, some "UNIQUE constraint failed: assistant_pairing_codes.code"⟩, db)
  else
    (⟨true, some request, none⟩, { db with pairingCodes := db.pairingCodes ++ [request] })

/-- db.updatePairingRequestStatus: UPDATE status WHERE code = code; data
reports whether any row changed. -/
def dbUpdatePairingRequestStatus (db : Db) (code : String) (status : PairingStatus) :
    IQueryResult Bool × Db :=
  (⟨true, some (db.pairingCodes.any (fun r => r.code == code)), none⟩,
   { db with pairingCodes :=
       db.pairingCodes.map (fun r => if r.code == code then { r with status := status } else r) })

/-- db.cleanupExpiredPairingRequests: DELETE rows WHERE expires_at < now
OR status is not pending; data is the number of deleted rows. -/
def dbCleanupExpiredPairingRequests (db : Db) (now : Nat) : IQueryResult Nat × Db :=
  let keep := fun (r : IChannelPairingRequest) => !(decide (r.expiresAt < now) || r.status != PairingStatus.pending)
  (⟨true, some (db.pairingCodes.length - (db.pairingCodes.filter keep).length), none⟩,
   { db with pairingCodes := db.pairingCodes.filter keep })

/-- db.getChannelUserByPlatform: SELECT the row WHERE platform_user_id
and platform_type match. -/
def dbGetChannelUserByPlatform (db : Db) (platformUserId platformType : String) :
    IQueryResult IChannelUser :=
  ⟨true, db.channelUsers.find? (fun u => u.platformUserId == platformUserId && u.platformType == platformType), none⟩

/-- db.createChannelUser: INSERT, failing on a primary-key conflict or on
the injected persistence fault. -/
def dbCreateChannelUser (db : Db) (user : IChannelUser) : IQueryResult IChannelUser × Db :=
  match db.channelUserInsertError with
  | some e => (⟨false, none, some e⟩, db)
  | none =>
    if db.channelUsers.any (fun u => u.id == user.id) then
      (⟨false, none, some "UNIQUE constraint failed: assistant_users.id"⟩, db)
    else
      (⟨true, some user, none⟩, { db with channelUsers := db.channelUsers ++ [user] })

namespace PairingService

/-- The retry loop of generateUniqueCode over one candidate random code:
a candidate is accepted when no row holds it, or when the row holding it
is no longer a live pending request (reuse). -/
def codeUsable (db : Db) (now : Nat) (code : String) : Bool :=
  let existing := dbGetPairingRequestByCode db code
  if !existing.success || existing.data.isNone then
    true
  else
    match existing.data with
    | some row => row.status != PairingStatus.pending || decide (row.expiresAt < now)
    | none => true

/-- generateUniqueCode: walk the stream of random candidates, returning
the first usable one; none models the throw after exhausting the
attempts. -/
def generateUniqueCodeAux (db : Db) (now : Nat) : List String → Option String
  | [] => none
  | c :: rest => if codeUsable db now c then some c else generateUniqueCodeAux db now rest

/-- generateUniqueCode caps the attempt count at 10 (maxAttempts). -/
def generateUniqueCode (db : Db) (now : Nat) (codes : List String) : Option String :=
  generateUniqueCodeAux db now (codes.take 10)

/-- The fresh-code tail of generatePairingCode: generate a unique code,
insert a pending request expiring at now + TTL, and return the pair;
Except.error models the thrown exceptions. -/
def generateFresh (db : Db) (now : Nat) (codes : List String)
    (platformUserId platformType : String) (displayName : Option String) :
    Except String (String × Nat) × Db :=
  match generateUniqueCode db now codes with
  | none => (Except.error "Failed to generate unique pairing code", db)
  | some code =>
    let expiresAt := now + PAIRING_CODE_EXPIRY_MS
    let request : IChannelPairingRequest :=
      { code := code, platformUserId := platformUserId, platformType := platformType,
        displayName := displayName, requestedAt := now, expiresAt := expiresAt,
        status := PairingStatus.pending }
    let created := dbCreatePairingRequest db request
    if !created.1.success then
      (Except.error (created.1.error.getD "Failed to create pairing request"), created.2)
    else
      (Except.ok (code, expiresAt), created.2)

/-- PairingService.generatePairingCode: return the existing non-expired
pending request for the identity unchanged when there is one, otherwise
create a fresh pending request. -/
def generatePairingCode (db : Db) (now : Nat) (codes : List String)
    (platformUserId platformType : String) (displayName : Option String) :
    Except String (String × Nat) × Db :=
  let existingResult := dbGetPendingPairingRequests db now
  let existing :=
    if existingResult.success && existingResult.data.isSome then
      (existingResult.data.getD []).find? (fun r =>
        r.platformUserId == platformUserId && r.platformType == platformType &&
        r.status == PairingStatus.pending)
    else none
  match existing with
  | some ex =>
    if decide (ex.expiresAt > now) then (Except.ok (ex.code, ex.expiresAt), db)
    else generateFresh db now codes platformUserId platformType displayName
  | none => generateFresh db now codes platformUserId platformType displayName

/-- PairingService.refreshPairingCode: mark every live pending request of
the identity expired, then generate a fresh code. -/
def refreshPairingCode (db : Db) (now : Nat) (codes : List String)
    (platformUserId platformType : String) (displayName : Option String) :
    Except String (String × Nat) × Db :=
  let existingResult := dbGetPendingPairingRequests db now
  let db1 :=
    if existingResult.success && existingResult.data.isSome then
      (existingResult.data.getD []).foldl
        (fun d r =>
          if r.platformUserId == platformUserId && r.platformType == platformType &&
             r.status == PairingStatus.pending then
            (dbUpdatePairingRequestStatus d r.code PairingStatus.expired).2
          else d)
        db
    else db
  generatePairingCode db1 now codes platformUserId platformType displayName

/-- PairingService.isUserAuthorized: a ChannelUser row exists for the
platform identity. -/
def isUserAuthorized (db : Db) (platformUserId platformType : String) : Bool :=
  let result := dbGetChannelUserByPlatform db platformUserId platformType
  result.success && result.data.isSome

/-- PairingService.getPairingRequest: the row holding the code, if the
read succeeds. -/
def getPairingRequest (db : Db) (code : String) : Option IChannelPairingRequest :=
  let result := dbGetPairingRequestByCode db code
  if result.success then result.data else none

/-- PairingService.getPendingRequestForUser: the live pending request of
the identity; expiry is compared against the clock at read time. -/
def getPendingRequestForUser (db : Db) (now : Nat) (platformUserId platformType : String) :
    Option IChannelPairingRequest :=
  let result := dbGetPendingPairingRequests db now
  if !result.success || result.data.isNone then none
  else
    (result.data.getD []).find? (fun r =>
      r.platformUserId == platformUserId && r.platformType == platformType &&
      r.status == PairingStatus.pending && decide (r.expiresAt > now))

/-- PairingService.getPendingRequests: every live pending request. -/
def getPendingRequests (db : Db) (now : Nat) : List IChannelPairingRequest :=
  let result := dbGetPendingPairingRequests db now
  if !result.success || result.data.isNone then []
  else (result.data.getD []).filter (fun r =>
    r.status == PairingStatus.pending && decide (r.expiresAt > now))

/-- Return shape of approvePairing. -/
structure ApproveResult where
  success : Bool
  user : Option IChannelUser
  error : Option String
deriving DecidableEq

/-- PairingService.approvePairing: reject unknown codes; auto-expire
time-expired codes; reject non-pending codes naming their status; reuse
an existing ChannelUser or create a fresh one (freshUserId models the
generated assistant_user id); mark approved only after the user row
exists. -/
def approvePairing (db : Db) (now : Nat) (freshUserId : String) (code : String) :
    ApproveResult × Db :=
  match getPairingRequest db code with
  | none => (⟨false, none, some "Pairing request not found"⟩, db)
  | some request =>
    if decide (request.expiresAt < now) then
      (⟨false, none, some "Pairing code has expired"⟩,
       (dbUpdatePairingRequestStatus db code PairingStatus.expired).2)
    else if request.status != PairingStatus.pending then
      (⟨false, none, some ("Pairing request already " ++ request.status.text)⟩, db)
    else
      let existingUser := dbGetChannelUserByPlatform db request.platformUserId request.platformType
      match (if existingUser.success then existingUser.data else none) with
      | some u =>
        (⟨true, some u, none⟩, (dbUpdatePairingRequestStatus db code PairingStatus.approved).2)
      | none =>
        let user : IChannelUser :=
          { id := freshUserId, platformUserId := request.platformUserId,
            platformType := request.platformType, displayName := request.displayName,
            authorizedAt := now }
        let created := dbCreateChannelUser db user
        if !created.1.success then
          (⟨false, none, created.1.error⟩, created.2)
        else
          (⟨true, some user, none⟩,
           (dbUpdatePairingRequestStatus created.2 code PairingStatus.approved).2)

/-- Return shape of rejectPairing. -/
structure RejectResult where
  success : Bool
  error : Option String
deriving DecidableEq

/-- PairingService.rejectPairing: reject unknown codes, otherwise set the
status to rejected unconditionally. -/
def rejectPairing (db : Db) (code : String) : RejectResult × Db :=
  match getPairingRequest db code with
  | none => (⟨false, some "Pairing request not found"⟩, db)
  | some _ => (⟨true, none⟩, (dbUpdatePairingRequestStatus db code PairingStatus.rejected).2)

/-- PairingService.cleanupExpired: delegate to the store sweep. -/
def cleanupExpired (db : Db) (now : Nat) : Nat × Db :=
  let result := dbCleanupExpiredPairingRequests db now
  (if result.1.success then result.1.data.getD 0 else 0, result.2)

/-- The status currently stored for a code (read helper for the theorems). -/
def codeStatus (db : Db) (code : String) : Option PairingStatus :=
  (db.pairingCodes.find? (fun r => r.code == code)).map (fun r => r.status)

end PairingService

/-! Association-list model of a JS Map: insertion-ordered key-value
pairs with unique keys.  Map.get is lookupA, Map.set is setA (replace in
place or append), Map.delete is eraseA. -/

/-- Map.get: the value bound to the first occurrence of the key. -/
def lookupA {α : Type} (l : List (String × α)) (k : String) : Option α :=
  (l.find? (fun p => p.1 == k)).map (fun p => p.2)

/-- Map.set: replace the binding in place, or append a new one. -/
def setA {α : Type} (l : List (String × α)) (k : String) (v : α) : List (String × α) :=
  if l.any (fun p => p.1 == k) then
    l.map (fun p => if p.1 == k then (k, v) else p)
  else l ++ [(k, v)]

/-- Map.delete: drop every binding of the key. -/
def eraseA {α : Type} (l : List (String × α)) (k : String) : List (String × α) :=
  l.filter (fun p => p.1 != k)

/-- Row of the assistant_sessions table (IChannelSession).  conversationId
and workspace are nullable in the source. -/
structure IChannelSession where
  id : String
  userId : String
  agentType : String
  conversationId : Option String
  workspace : Option String
  createdAt : Nat
  lastActivity : Nat
deriving DecidableEq

/-- db.deleteChannelSession: DELETE rows WHERE id = sessionId. -/
def dbDeleteChannelSession (rows : List IChannelSession) (sessionId : String) :
    List IChannelSession :=
  rows.filter (fun r => r.id != sessionId)

/-- db.upsertChannelSession: INSERT, or on an id conflict UPDATE every
column except user_id and created_at.  The source replaces a falsy (zero)
createdAt and lastActivity with its own clock reading. -/
def dbUpsertChannelSession (rows : List IChannelSession) (s : IChannelSession) (now : Nat) :
    List IChannelSession :=
  if rows.any (fun r => r.id == s.id) then
    rows.map (fun r =>
      if r.id == s.id then
        { r with agentType := s.agentType, conversationId := s.conversationId,
                 workspace := s.workspace,
                 lastActivity := if s.lastActivity == 0 then now else s.lastActivity }
      else r)
  else
    rows ++ [{ s with createdAt := if s.createdAt == 0 then now else s.createdAt,
                      lastActivity := if s.lastActivity == 0 then now else s.lastActivity }]

namespace SessionManager

/-- SessionManager state: the in-memory activeSessions Map keyed by
userId, plus the persisted assistant_sessions table. -/
structure SMState where
  activeSessions : List (String × IChannelSession)
  dbSessions : List IChannelSession
deriving DecidableEq

/-- SessionManager.getSession: cache lookup by user id. -/
def getSession (st : SMState) (userId : String) : Option IChannelSession :=
  lookupA st.activeSessions userId

/-- SessionManager.createSessionWithConversation: delete the existing
session of the user from the store if the cache holds one, insert a
fresh row bound to the given conversation, and replace the cache entry.
freshId models the generated uuid, now the clock. -/
def createSessionWithConversation (st : SMState) (user : IChannelUser)
    (conversationId : String) (agentType : String) (workspace : Option String)
    (freshId : String) (now : Nat) : IChannelSession × SMState :=
  let rows :=
    match lookupA st.activeSessions user.id with
    | some existing => dbDeleteChannelSession st.dbSessions existing.id
    | none => st.dbSessions
  let session : IChannelSession :=
    { id := freshId, userId := user.id, agentType := agentType, workspace := workspace,
      conversationId := some conversationId, createdAt := now, lastActivity := now }
  let rows := dbUpsertChannelSession rows session now
  (session, { activeSessions := setA st.activeSessions user.id session, dbSessions := rows })

/-- SessionManager.createSession: same, with a freshly generated
conversation id (freshConversationId models the uuid call). -/
def createSession (st : SMState) (user : IChannelUser) (agentType : String)
    (workspace : Option String) (freshConversationId freshId : String) (now : Nat) :
    IChannelSession × SMState :=
  createSessionWithConversation st user freshConversationId agentType workspace freshId now

/-- SessionManager.clearSession: delete the cached session of the user
from store and cache; false when the user has none. -/
def clearSession (st : SMState) (userId : String) : Bool × SMState :=
  match lookupA st.activeSessions userId with
  | none => (false, st)
  | some session =>
    (true, { activeSessions := eraseA st.activeSessions userId,
             dbSessions := dbDeleteChannelSession st.dbSessions session.id })

/-- SessionManager.clearSessionByConversationId: find the first cache
entry bound to the conversation, delete it from store and cache, and
return the removed row. -/
def clearSessionByConversationId (st : SMState) (conversationId : String) :
    Option IChannelSession × SMState :=
  match st.activeSessions.find? (fun p => p.2.conversationId == some conversationId) with
  | none => (none, st)
  | some p =>
    (some p.2, { activeSessions := eraseA st.activeSessions p.1,
                 dbSessions := dbDeleteChannelSession st.dbSessions p.2.id })

/-- SessionManager.cleanupStaleSessions: drop every session whose
lastActivity is older than maxAgeMs, from store and cache; returns the
number removed. -/
def cleanupStaleSessions (st : SMState) (maxAgeMs now : Nat) : Nat × SMState :=
  let stale := st.activeSessions.filter (fun p => decide (now - p.2.lastActivity > maxAgeMs))
  let rows := stale.foldl (fun rows p => dbDeleteChannelSession rows p.2.id) st.dbSessions
  (stale.length,
   { activeSessions := st.activeSessions.filter (fun p => !decide (now - p.2.lastActivity > maxAgeMs)),
     dbSessions := rows })

/-- SessionManager.updateSessionActivity: touch the cached session of the
user (in place) and write it through. -/
def updateSessionActivity (st : SMState) (userId : String) (now : Nat) : SMState :=
  match lookupA st.activeSessions userId with
  | none => st
  | some session =>
    let touched := { session with lastActivity := now }
    { activeSessions := setA st.activeSessions userId touched,
      dbSessions := dbUpsertChannelSession st.dbSessions touched now }

/-- The operations of the claim over the session registry.  The fresh-id
arguments carry the uuids the source draws inside the operation. -/
inductive SMOp
  | createSession (user : IChannelUser) (agentType : String) (workspace : Option String)
      (freshConversationId freshId : String) (now : Nat)
  | createSessionWithConversation (user : IChannelUser) (conversationId : String)
      (agentType : String) (workspace : Option String) (freshId : String) (now : Nat)
  | clearSession (userId : String)
  | clearSessionByConversationId (conversationId : String)
  | cleanupStaleSessions (maxAgeMs now : Nat)

/-- Apply one operation to the registry state. -/
def applyOp (st : SMState) : SMOp → SMState
  | .createSession user agentType workspace freshConversationId freshId now =>
    (createSession st user agentType workspace freshConversationId freshId now).2
  | .createSessionWithConversation user conversationId agentType workspace freshId now =>
    (createSessionWithConversation st user conversationId agentType workspace freshId now).2
  | .clearSession userId => (clearSession st userId).2
  | .clearSessionByConversationId conversationId => (clearSessionByConversationId st conversationId).2
  | .cleanupStaleSessions maxAgeMs now => (cleanupStaleSessions st maxAgeMs now).2

/-- A create operation must draw a uuid that no stored row already uses
(uuid freshness). -/
def opFresh (st : SMState) : SMOp → Prop
  | .createSession _ _ _ _ freshId _ => ∀ r ∈ st.dbSessions, r.id ≠ freshId
  | .createSessionWithConversation _ _ _ _ freshId _ => ∀ r ∈ st.dbSessions, r.id ≠ freshId
  | _ => True

/-- Run a sequence of operations. -/
def runOps (st : SMState) : List SMOp → SMState
  | [] => st
  | op :: rest => runOps (applyOp st op) rest

/-- Every create operation along the run draws a fresh uuid. -/
def opsFresh (st : SMState) : List SMOp → Prop
  | [] => True
  | op :: rest => opFresh st op ∧ opsFresh (applyOp st op) rest

/-- The cache mirrors the store exactly: unique cache keys, unique row
ids, unique row user ids, every cache entry is a stored row keyed by its
user id, and every stored row is cached under its user id. -/
def SMInv (st : SMState) : Prop :=
  (st.activeSessions.map (fun p => p.1)).Nodup ∧
  (st.dbSessions.map (fun r => r.id)).Nodup ∧
  (st.dbSessions.map (fun r => r.userId)).Nodup ∧
  (∀ p ∈ st.activeSessions, p.2 ∈ st.dbSessions ∧ p.2.userId = p.1) ∧
  (∀ r ∈ st.dbSessions, (r.userId, r) ∈ st.activeSessions)

/-- The property of the claim: at most one session per user id, in the
cache and in the store. -/
def atMostOnePerUser (st : SMState) : Prop :=
  (st.activeSessions.map (fun p => p.1)).Nodup ∧
  (st.dbSessions.map (fun r => r.userId)).Nodup ∧
  ∀ p ∈ st.activeSessions, p.2.userId = p.1

instance (st : SMState) : Decidable (SMInv st) := by
  unfold SMInv
  infer_instance

instance (st : SMState) : (op : SMOp) → Decidable (opFresh st op)
  | .createSession _ _ _ _ freshId _ =>
    inferInstanceAs (Decidable (∀ r ∈ st.dbSessions, r.id ≠ freshId))
  | .createSessionWithConversation _ _ _ _ freshId _ =>
    inferInstanceAs (Decidable (∀ r ∈ st.dbSessions, r.id ≠ freshId))
  | .clearSession _ => inferInstanceAs (Decidable True)
  | .clearSessionByConversationId _ => inferInstanceAs (Decidable True)
  | .cleanupStaleSessions _ _ => inferInstanceAs (Decidable True)

instance instDecOpsFresh (st : SMState) : (ops : List SMOp) → Decidable (opsFresh st ops)
  | [] => inferInstanceAs (Decidable True)
  | op :: rest =>
    haveI := instDecOpsFresh (applyOp st op) rest
    inferInstanceAs (Decidable (opFresh st op ∧ opsFresh (applyOp st op) rest))

end SessionManager

/-- Plugin lifecycle status (PluginStatus):
created | initializing | ready | starting | running | stopping | stopped | error. -/
inductive PluginStatus
  | created
  | initializing
  | ready
  | starting
  | running
  | stopping
  | stopped
  | error
deriving DecidableEq

/-- The string rendering of a plugin status, as persisted and spliced
into messages. -/
def PluginStatus.text : PluginStatus → String
  | .created => "created"
  | .initializing => "initializing"
  | .ready => "ready"
  | .starting => "starting"
  | .running => "running"
  | .stopping => "stopping"
  | .stopped => "stopped"
  | .error => "error"

namespace BasePlugin

/-- Observable BasePlugin instance state: the lifecycle status and the
errorMessage field (null when the last setStatus carried no error). -/
structure BP where
  status : PluginStatus
  errorMessage : Option String
deriving DecidableEq

/-- A freshly constructed plugin instance. -/
def new : BP := ⟨PluginStatus.created, none⟩

deriving instance DecidableEq for Except

/-- Result of one lifecycle call: the returned or thrown value, the
instance state afterwards, and whether the platform hook
(onInitialize / onStart / onStop) was invoked. -/
structure CallResult where
  res : Except String Unit
  bp : BP
  invoked : Bool
deriving DecidableEq

/-- BasePlugin.initialize: set initializing, run onInitialize (whose
outcome is the hookError parameter: none resolves, some e throws e),
then set ready, or set error and rethrow. -/
def doInit (_bp : BP) (hookError : Option String) : CallResult :=
  match hookError with
  | none => ⟨Except.ok (), ⟨PluginStatus.ready, none⟩, true⟩
  | some e => ⟨Except.error e, ⟨PluginStatus.error, some e⟩, true⟩

/-- BasePlugin.start: throw without touching the instance or onStart
unless the status is ready or stopped; otherwise run onStart and land in
running, or in error rethrowing. -/
def start (bp : BP) (hookError : Option String) : CallResult :=
  if bp.status != PluginStatus.ready && bp.status != PluginStatus.stopped then
    ⟨Except.error ("Cannot start plugin in status: " ++ bp.status.text), bp, false⟩
  else
    match hookError with
    | none => ⟨Except.ok (), ⟨PluginStatus.running, none⟩, true⟩
    | some e => ⟨Except.error e, ⟨PluginStatus.error, some e⟩, true⟩

/-- BasePlugin.stop: return silently without touching the instance or
onStop unless the status is running or error; otherwise run onStop and
land in stopped, or in error rethrowing. -/
def stop (bp : BP) (hookError : Option String) : CallResult :=
  if bp.status != PluginStatus.running && bp.status != PluginStatus.error then
    ⟨Except.ok (), bp, false⟩
  else
    match hookError with
    | none => ⟨Except.ok (), ⟨PluginStatus.stopped, none⟩, true⟩
    | some e => ⟨Except.error e, ⟨PluginStatus.error, some e⟩, true⟩

end BasePlugin

/-- Persisted plugin config row as far as the manager reads it
(IChannelPluginConfig: the credential blob is reduced to token
presence). -/
structure PluginConfigRow where
  id : String
  type : String
  name : String
  enabled : Bool
  status : String
  lastConnected : Option Nat
  hasToken : Bool
deriving DecidableEq

/-- db.updateChannelPluginStatus: UPDATE status and, when a timestamp is
supplied, last_connected, WHERE id = pluginId. -/
def dbUpdateChannelPluginStatus (rows : List PluginConfigRow) (pluginId : String)
    (status : String) (lastConnected : Option Nat) : List PluginConfigRow :=
  rows.map (fun r =>
    if r.id == pluginId then
      { r with status := status,
               lastConnected := match lastConnected with
                 | some t => some t
                 | none => r.lastConnected }
    else r)

/-- Status object pushed to the UI (IChannelPluginStatus; the
plugin-delegated botUsername and activeUsers fields are outside the
modelled BasePlugin state and omitted). -/
structure IChannelPluginStatus where
  id : String
  type : String
  name : String
  enabled : Bool
  connected : Bool
  status : String
  lastConnected : Option Nat
  error : Option String
  hasToken : Bool
deriving DecidableEq

namespace PluginManager

/-- PluginManager state: the running-instance map, the per-plugin error
cache, the persisted config table, and the pluginStatusChanged emissions
in order. -/
structure PMState where
  plugins : List (String × BasePlugin.BP)
  pluginErrors : List (String × String)
  dbPlugins : List PluginConfigRow
  events : List (String × IChannelPluginStatus)
deriving DecidableEq

/-- PluginManager.buildPluginStatus: merge the persisted config with live
runtime state; the error falls back from the instance to the cache. -/
def buildPluginStatus (st : PMState) (config : PluginConfigRow) : IChannelPluginStatus :=
  let plugin := lookupA st.plugins config.id
  { id := config.id, type := config.type, name := config.name, enabled := config.enabled,
    connected := plugin.map (fun p => p.status) == some PluginStatus.running,
    status := match plugin with
      | some p => p.status.text
      | none => config.status,
    lastConnected := config.lastConnected,
    error := match plugin with
      | some p => match p.errorMessage with
        | some e => some e
        | none => lookupA st.pluginErrors config.id
      | none => lookupA st.pluginErrors config.id,
    hasToken := config.hasToken }

/-- PluginManager.getPluginStatuses: one status object per persisted
config row. -/
def getPluginStatuses (st : PMState) : List IChannelPluginStatus :=
  st.dbPlugins.map (buildPluginStatus st)

/-- emitStatusChange: re-read the config row and push the merged status. -/
def emitStatusChange (st : PMState) (pluginId : String) : PMState :=
  match st.dbPlugins.find? (fun r => r.id == pluginId) with
  | some config => { st with events := st.events ++ [(pluginId, buildPluginStatus st config)] }
  | none => st

/-- emitStatusChangeWithError: push an explicit error status built from
the config (used before the instance exists). -/
def emitStatusChangeWithError (st : PMState) (pluginId : String) (config : PluginConfigRow)
    (errorMessage : String) : PMState :=
  { st with events := st.events ++
      [(pluginId,
        { id := config.id, type := config.type, name := config.name, enabled := config.enabled,
          connected := false, status := "error", lastConnected := config.lastConnected,
          error := some errorMessage, hasToken := config.hasToken })] }

/-- PluginManager.startPlugin.  registeredTypes models the constructor
registry; initHookError and startHookError are the outcomes of the
platform onInitialize and onStart hooks; now is the clock reading for
last_connected.  Errors are both returned (the rethrow) and reflected in
the state. -/
def startPlugin (st : PMState) (config : PluginConfigRow) (registeredTypes : List String)
    (initHookError startHookError : Option String) (now : Nat) :
    Except String Unit × PMState :=
  let st := { st with pluginErrors := eraseA st.pluginErrors config.id }
  if (lookupA st.plugins config.id).isSome then
    (Except.ok (), st)
  else if !(registeredTypes.contains config.type) then
    let errorMsg := "Unknown plugin type: " ++ config.type
    (Except.error errorMsg, { st with pluginErrors := setA st.pluginErrors config.id errorMsg })
  else
    let plugin := BasePlugin.new
    let initResult := BasePlugin.doInit plugin initHookError
    match initResult.res with
    | Except.error e =>
      let errorMsg := "Plugin initialization failed: " ++ e
      let st := { st with pluginErrors := setA st.pluginErrors config.id errorMsg,
                          dbPlugins := dbUpdateChannelPluginStatus st.dbPlugins config.id "error" none }
      (Except.error e, emitStatusChangeWithError st config.id config errorMsg)
    | Except.ok _ =>
      let startResult := BasePlugin.start initResult.bp startHookError
      match startResult.res with
      | Except.error e =>
        let errorMsg := "Plugin start failed: " ++ e
        let st := { st with pluginErrors := setA st.pluginErrors config.id errorMsg,
                            dbPlugins := dbUpdateChannelPluginStatus st.dbPlugins config.id "error" none }
        (Except.error e, emitStatusChangeWithError st config.id config errorMsg)
      | Except.ok _ =>
        let st := { st with plugins := setA st.plugins config.id startResult.bp,
                            dbPlugins := dbUpdateChannelPluginStatus st.dbPlugins config.id "running" (some now) }
        (Except.ok (), emitStatusChange st config.id)

/-- PluginManager.stopPlugin: silently return when the id is not running;
otherwise call the instance stop (stopHookError is the onStop outcome),
and only on success remove it from the map, persist stopped and emit.  A
thrown stop propagates and leaves the (now errored) instance in the map. -/
def stopPlugin (st : PMState) (pluginId : String) (stopHookError : Option String) :
    Except String Unit × PMState :=
  match lookupA st.plugins pluginId with
  | none => (Except.ok (), st)
  | some plugin =>
    let stopResult := BasePlugin.stop plugin stopHookError
    match stopResult.res with
    | Except.error e =>
      (Except.error e, { st with plugins := setA st.plugins pluginId stopResult.bp })
    | Except.ok _ =>
      let st := { st with plugins := eraseA st.plugins pluginId,
                          dbPlugins := dbUpdateChannelPluginStatus st.dbPlugins pluginId "stopped" none }
      (Except.ok (), emitStatusChange st pluginId)

/-- A start or stop call of the claim, with its hook outcomes. -/
inductive PMOp
  | start (config : PluginConfigRow) (initHookError startHookError : Option String) (now : Nat)
  | stop (pluginId : String) (stopHookError : Option String)

/-- Apply one manager operation. -/
def applyPMOp (registeredTypes : List String) (st : PMState) : PMOp → PMState
  | .start config initHookError startHookError now =>
    (startPlugin st config registeredTypes initHookError startHookError now).2
  | .stop pluginId stopHookError => (stopPlugin st pluginId stopHookError).2

/-- Run a sequence of manager operations. -/
def runPMOps (registeredTypes : List String) (st : PMState) : List PMOp → PMState
  | [] => st
  | op :: rest => runPMOps registeredTypes (applyPMOp registeredTypes st op) rest

end PluginManager

/-- Replace every occurrence of a character by a string (one chained
String.prototype.replace call with a global single-character pattern). -/
def replaceChar (s : String) (c : Char) (r : String) : String :=
  String.join (s.toList.map (fun x => if x = c then r else String.singleton x))

/-- escapeHtml (TelegramAdapter): escape ampersand, then the angle
brackets, for the Telegram HTML parse mode. -/
def escapeHtml (s : String) : String :=
  replaceChar (replaceChar (replaceChar s '&' "&amp;") '<' "&lt;") '>' "&gt;"

/-- JS string-or: the left string unless it is empty (falsy). -/
def jsOr (a b : String) : String :=
  if a == "" then b else a

/-- A nullable JS string read as a string: undefined and null are falsy
like the empty string. -/
def optString (o : Option String) : String :=
  o.getD ""

/-- A nullable JS string as a boolean: truthy when present and non-empty. -/
def jsTruthyStr (o : Option String) : Bool :=
  match o with
  | some s => s != ""
  | none => false

/-- The inline keyboards the executor attaches to outgoing messages,
identified by their semantic payload (their grammY button layout is wire
detail of the Telegram plugin). -/
inductive ReplyMarkup
  | responseActions
  | toolConfirmation (callId : String) (options : List (String × String))
  | mainMenu
  | errorRecovery
deriving DecidableEq

/-- createResponseActionsKeyboard: the copy / regenerate / continue
action buttons. -/
def createResponseActionsKeyboard : ReplyMarkup := ReplyMarkup.responseActions

/-- createToolConfirmationKeyboard: one button per (label, value) option,
each bound to callId. -/
def createToolConfirmationKeyboard (callId : String) (options : List (String × String)) :
    ReplyMarkup := ReplyMarkup.toolConfirmation callId options

/-- Outgoing unified message as the streaming path builds it. -/
structure IUnifiedOutgoingMessage where
  type : String
  text : String
  parseMode : String
  replyMarkup : Option ReplyMarkup
deriving DecidableEq

/-- Tool-confirmation details carried by a Confirming tool call. -/
structure ConfirmationDetails where
  type : String
  fileName : Option String
  command : Option String
  toolName : Option String
  toolDisplayName : Option String
  serverName : Option String
  prompt : Option String
deriving DecidableEq

/-- One entry of a tool_group message. -/
structure ToolCallItem where
  name : String
  description : Option String
  status : String
  callId : String
  confirmationDetails : Option ConfirmationDetails
deriving DecidableEq

/-- Agent response message (the TMessage cases the converter handles;
every other shape falls to the default branch). -/
inductive TMessage
  | text (content : String)
  | tips (kind : String) (content : String)
  | toolGroup (tools : List ToolCallItem)
  | toolCall (name : String) (status : String)
  | other
deriving DecidableEq

namespace ActionExecutor

/-- getConfirmationOptions: the button options per confirmation type. -/
def getConfirmationOptions (type : String) : List (String × String) :=
  if type == "edit" then
    [("✅ Allow Once", "proceed_once"), ("✅ Always Allow", "proceed_always"), ("❌ Cancel", "cancel")]
  else if type == "exec" then
    [("✅ Allow Execution", "proceed_once"), ("✅ Always Allow", "proceed_always"), ("❌ Cancel", "cancel")]
  else if type == "mcp" then
    [("✅ Allow Once", "proceed_once"), ("✅ Always Allow Tool", "proceed_always_tool"),
     ("✅ Always Allow Server", "proceed_always_server"), ("❌ Cancel", "cancel")]
  else
    [("✅ Confirm", "proceed_once"), ("❌ Cancel", "cancel")]

/-- getConfirmationPrompt: the user-facing confirmation text, with every
user-supplied field HTML-escaped. -/
def getConfirmationPrompt (details : Option ConfirmationDetails) : String :=
  match details with
  | none => "Please confirm the operation"
  | some d =>
    if d.type == "edit" then
      "📝 <b>Edit File Confirmation</b>\nFile: <code>" ++
        escapeHtml (jsOr (optString d.fileName) "Unknown file") ++
        "</code>\n\nAllow editing this file?"
    else if d.type == "exec" then
      "⚡ <b>Execute Command Confirmation</b>\nCommand: <code>" ++
        escapeHtml (jsOr (optString d.command) "Unknown command") ++
        "</code>\n\nAllow executing this command?"
    else if d.type == "mcp" then
      "🔧 <b>MCP Tool Confirmation</b>\nTool: <code>" ++
        escapeHtml (jsOr (optString d.toolDisplayName) (jsOr (optString d.toolName) "Unknown tool")) ++
        "</code>\nServer: <code>" ++
        escapeHtml (jsOr (optString d.serverName) "Unknown server") ++
        "</code>\n\nAllow calling this tool?"
    else if d.type == "info" then
      "ℹ️ <b>Information Confirmation</b>\n" ++ escapeHtml (optString d.prompt) ++ "\n\nContinue?"
    else
      "Please confirm the operation"

/-- convertTMessageToOutgoing: render one agent response message as a
unified outgoing message; only a complete text message carries the
response-action buttons, and a Confirming tool group carries the
confirmation keyboard. -/
def convertTMessageToOutgoing (message : TMessage) (isComplete : Bool) : IUnifiedOutgoingMessage :=
  match message with
  | .text content =>
    let text := jsOr (escapeHtml (jsOr content "")) "..."
    { type := "text", text := text, parseMode := "HTML",
      replyMarkup := if isComplete then some createResponseActionsKeyboard else none }
  | .tips kind content =>
    let icon := if kind == "error" then "❌" else if kind == "success" then "✅" else "⚠️"
    { type := "text", text := icon ++ " " ++ escapeHtml (jsOr content ""), parseMode := "HTML",
      replyMarkup := none }
  | .toolGroup tools =>
    let toolLines := tools.map (fun tool =>
      let statusIcon :=
        if tool.status == "Success" then "✅"
        else if tool.status == "Error" then "❌"
        else if tool.status == "Executing" then "⏳"
        else if tool.status == "Confirming" then "❓"
        else "📋"
      statusIcon ++ " " ++ escapeHtml (jsOr (optString tool.description) (jsOr tool.name "")))
    let confirming := tools.find? (fun tool =>
      tool.status == "Confirming" && tool.confirmationDetails.isSome)
    match confirming with
    | some confirmingTool =>
      match confirmingTool.confirmationDetails with
      | some details =>
        let options := getConfirmationOptions details.type
        let confirmText := String.intercalate "\n" toolLines ++ "\n\n" ++
          getConfirmationPrompt (some details)
        { type := "text", text := confirmText, parseMode := "HTML",
          replyMarkup := some (createToolConfirmationKeyboard confirmingTool.callId options) }
      | none =>
        { type := "text", text := jsOr (String.intercalate "\n" toolLines) "🔧 Executing tools...",
          parseMode := "HTML", replyMarkup := none }
    | none =>
      { type := "text", text := jsOr (String.intercalate "\n" toolLines) "🔧 Executing tools...",
        parseMode := "HTML", replyMarkup := none }
  | .toolCall name status =>
    let statusIcon := if status == "success" then "✅" else if status == "error" then "❌" else "⏳"
    { type := "text", text := statusIcon ++ " " ++ escapeHtml (jsOr name ""), parseMode := "HTML",
      replyMarkup := none }
  | .other =>
    { type := "text", text := "⏳ Processing...", parseMode := "HTML", replyMarkup := none }

/-! The streaming throttle of handleChatMessage.  Stream events carry
the clock reading at which the onEvent callback runs; the single
deferred-edit timer is the pendingTimer field holding its scheduled fire
time; a due timer runs before the next callback (and before stream
completion), matching the event loop.  Platform sends and edits are
recorded as call lists. -/

/-- Update rate limit: one edit per 500 ms (UPDATE_THROTTLE_MS). -/
def UPDATE_THROTTLE_MS : Nat := 500

/-- One invocation of the streaming onEvent callback; sendFails is the
outcome of the platform sendMessage call an insert event performs (its
rejection is caught and only logged). -/
structure StreamEvent where
  time : Nat
  message : TMessage
  isInsert : Bool
  sendFails : Bool
deriving DecidableEq

/-- One editMessage platform call. -/
structure EditCall where
  time : Nat
  messageId : String
  message : IUnifiedOutgoingMessage
deriving DecidableEq

/-- One sendMessage platform call, with the message id the platform
returned for it. -/
structure SendCall where
  time : Nat
  messageId : String
  message : IUnifiedOutgoingMessage
deriving DecidableEq

/-- The local state of one handleChatMessage stream. -/
structure ThrottleState where
  thinkingMsgId : String
  lastUpdateTime : Nat
  pendingTimer : Option Nat
  pendingMessage : Option IUnifiedOutgoingMessage
  sentMessageIds : List String
  lastMessageContent : Option IUnifiedOutgoingMessage
  throttledEdits : List EditCall
  sends : List SendCall
  nextId : Nat
deriving DecidableEq

/-- State at stream start: the thinking placeholder is the only sent
message and no edit has happened (lastUpdateTime 0). -/
def initThrottleState (thinkingMsgId : String) : ThrottleState :=
  { thinkingMsgId := thinkingMsgId, lastUpdateTime := 0, pendingTimer := none,
    pendingMessage := none, sentMessageIds := [thinkingMsgId], lastMessageContent := none,
    throttledEdits := [], sends := [], nextId := 0 }

/-- The edit target: the last sent message id, falling back to the
thinking placeholder. -/
def targetMessageId (st : ThrottleState) : String :=
  jsOr (optString st.sentMessageIds.getLast?) st.thinkingMsgId

/-- doEditMessage: record the clock and edit the newest message (edit
failures are swallowed and leave no trace in the state). -/
def doEditMessage (st : ThrottleState) (t : Nat) (msg : IUnifiedOutgoingMessage) : ThrottleState :=
  { st with lastUpdateTime := t,
            throttledEdits := st.throttledEdits ++ [⟨t, targetMessageId st, msg⟩] }

/-- Run the deferred-edit timer if its scheduled time has been reached:
edit with the stashed message and clear both the stash and the handle. -/
def fireDueTimer (st : ThrottleState) (t : Nat) : ThrottleState :=
  match st.pendingTimer with
  | none => st
  | some fireAt =>
    if fireAt ≤ t then
      match st.pendingMessage with
      | some m => { doEditMessage st fireAt m with pendingMessage := none, pendingTimer := none }
      | none => { st with pendingTimer := none }
    else st

/-- One onEvent callback: a new message is sent immediately and tracked;
an update is stashed and either edited immediately (when the throttle
window has elapsed, cancelling any deferred edit) or left to a single
rescheduled deferred edit at lastUpdateTime + window. -/
def handleStreamEvent (st0 : ThrottleState) (e : StreamEvent) : ThrottleState :=
  let st := fireDueTimer st0 e.time
  let now := e.time
  let outgoingMessage := convertTMessageToOutgoing e.message false
  let st := { st with lastMessageContent := some outgoingMessage }
  if e.isInsert then
    if e.sendFails then
      st
    else
      let newMsgId := "m" ++ toString st.nextId
      { st with sends := st.sends ++ [⟨now, newMsgId, outgoingMessage⟩],
                sentMessageIds := st.sentMessageIds ++ [newMsgId],
                nextId := st.nextId + 1 }
  else
    let st := { st with pendingMessage := some outgoingMessage }
    if UPDATE_THROTTLE_MS ≤ now - st.lastUpdateTime then
      doEditMessage { st with pendingTimer := none } now outgoingMessage
    else
      { st with pendingTimer := some (now + (UPDATE_THROTTLE_MS - (now - st.lastUpdateTime))) }

/-- The whole event stream, in callback order. -/
def runStream (thinkingMsgId : String) (events : List StreamEvent) : ThrottleState :=
  events.foldl handleStreamEvent (initThrottleState thinkingMsgId)

/-- Stream completion at time tEnd: a still-due deferred edit runs first,
the timer handle is cleared, and the last message is edited once more
with its last content plus the response-action buttons (or a done
placeholder when the stream produced no event). -/
def finishStream (st0 : ThrottleState) (tEnd : Nat) : ThrottleState × EditCall :=
  let st := fireDueTimer st0 tEnd
  let st := { st with pendingTimer := none }
  let finalMessage :=
    match st.lastMessageContent with
    | some m => { m with replyMarkup := some createResponseActionsKeyboard }
    | none => { type := "text", text := "✅ Done", parseMode := "HTML",
                replyMarkup := some createResponseActionsKeyboard }
  (st, ⟨tEnd, targetMessageId st, finalMessage⟩)

/-- handleChatMessage from the thinking placeholder on: process the
stream then perform the completion edit. -/
def handleChatMessageStream (thinkingMsgId : String) (events : List StreamEvent) (tEnd : Nat) :
    ThrottleState × EditCall :=
  finishStream (runStream thinkingMsgId events) tEnd

/-- Throttle machine invariant at clock reading now: throttled edits are
spaced by at least the window, lastUpdateTime is the time of the last
throttled edit (zero before the first), the clock is ahead of it, and a
scheduled deferred edit fires exactly one window after the last edit, in
the future. -/
def TInv (st : ThrottleState) (now : Nat) : Prop :=
  List.Chain' (fun a b => a + UPDATE_THROTTLE_MS ≤ b) (st.throttledEdits.map (fun e => e.time)) ∧
  ((st.throttledEdits = [] ∧ st.lastUpdateTime = 0) ∨
    (st.throttledEdits.map (fun e => e.time)).getLast? = some st.lastUpdateTime) ∧
  st.lastUpdateTime ≤ now ∧
  (∀ f, st.pendingTimer = some f → f = st.lastUpdateTime + UPDATE_THROTTLE_MS ∧ now < f)

/-! The routing prefix of handleIncomingMessage. -/

/-- Typed content of an inbound unified message. -/
structure IUnifiedIncomingContent where
  type : String
  text : String
deriving DecidableEq

/-- Decoded action attached to an inbound message. -/
structure IncomingAction where
  type : String
  name : String
deriving DecidableEq

/-- Inbound unified message as the router reads it. -/
structure IUnifiedIncomingMessage where
  id : String
  platform : String
  chatId : String
  userId : String
  userDisplayName : Option String
  content : IUnifiedIncomingContent
  action : Option IncomingAction
deriving DecidableEq

/-- Observable routing steps of one handleIncomingMessage call, in
order.  channelUserLookup is the authorized-path resolution of the
ChannelUser row for the context (the spec step after authorization). -/
inductive RouteEffect
  | droppedNoPlugin
  | pairingShown
  | channelUserLookup
  | dataErrorReported
  | sessionResolved
  | sessionCreated (conversationId : String)
  | sessionCreateFailed
  | actionDispatched (name : String)
  | chatHandled (text : String)
  | unsupportedReplied
deriving DecidableEq

/-- Classification once a session is bound: an explicit action wins over
an action encoded as content, which wins over free text; anything else
draws the unsupported reply. -/
def routeClassify (message : IUnifiedIncomingMessage) : RouteEffect :=
  match message.action with
  | some a => RouteEffect.actionDispatched a.name
  | none =>
    if message.content.type == "action" then
      RouteEffect.actionDispatched message.content.text
    else if message.content.type == "text" && message.content.text != "" then
      RouteEffect.chatHandled message.content.text
    else
      RouteEffect.unsupportedReplied

/-- The create-session arm of step 5: ask the conversation collaborator
for a conversation (conversationResult), bind a fresh session to it, or
report the failure and stop. -/
def createSessionPath (sm : SessionManager.SMState) (channelUser : IChannelUser)
    (conversationResult : Except String String) (freshSessionId : String) (now : Nat)
    (message : IUnifiedIncomingMessage) (effects : List RouteEffect) :
    List RouteEffect × SessionManager.SMState :=
  match conversationResult with
  | Except.ok conversationId =>
    let created := SessionManager.createSessionWithConversation sm channelUser conversationId
      "gemini" none freshSessionId now
    (effects ++ [RouteEffect.sessionCreated conversationId, routeClassify message], created.2)
  | Except.error _ => (effects ++ [RouteEffect.sessionCreateFailed], sm)

/-- ActionExecutor.handleIncomingMessage up to dispatch: resolve the
plugin, force the pairing flow for the entry command or an unauthorized
identity, resolve the ChannelUser, resolve or create the session, then
classify.  pluginTypes lists the types of the running plugins;
conversationResult, freshSessionId and now feed the create arm. -/
def handleIncomingMessage (db : Db) (sm : SessionManager.SMState) (pluginTypes : List String)
    (conversationResult : Except String String) (freshSessionId : String) (now : Nat)
    (message : IUnifiedIncomingMessage) : List RouteEffect × SessionManager.SMState :=
  match pluginTypes.find? (fun t => t == message.platform) with
  | none => ([RouteEffect.droppedNoPlugin], sm)
  | some _ =>
    let isAuthorized := PairingService.isUserAuthorized db message.userId message.platform
    if message.content.type == "command" && message.content.text == "/start" then
      ([RouteEffect.pairingShown], sm)
    else if !isAuthorized then
      ([RouteEffect.pairingShown], sm)
    else
      let userResult := dbGetChannelUserByPlatform db message.userId message.platform
      match userResult.data with
      | none => ([RouteEffect.channelUserLookup, RouteEffect.dataErrorReported], sm)
      | some channelUser =>
        let base := [RouteEffect.channelUserLookup]
        match SessionManager.getSession sm channelUser.id with
        | some session =>
          if jsTruthyStr session.conversationId then
            (base ++ [RouteEffect.sessionResolved, routeClassify message], sm)
          else
            createSessionPath sm channelUser conversationResult freshSessionId now message base
        | none =>
          createSessionPath sm channelUser conversationResult freshSessionId now message base

end ActionExecutor

/-! Helper lemmas shared by the claim theorems. -/

/-- Two predicates that agree on the members of a list find the same
element. -/
theorem find_eq_of_eq_on {α : Type} (l : List α) {p q : α → Bool}
    (h : ∀ x ∈ l, p x = q x) : l.find? p = l.find? q := by
  induction l with
  | nil => rfl
  | cons a t ih =>
    have ha := h a (List.mem_cons_self a t)
    by_cases hpa : p a = true
    · rw [List.find?_cons_of_pos _ hpa, List.find?_cons_of_pos _ (ha ▸ hpa)]
    · rw [List.find?_cons_of_neg _ hpa, List.find?_cons_of_neg _ (ha ▸ hpa),
        ih (fun x hx => h x (List.mem_cons_of_mem a hx))]

/-- find? commutes with a map that does not change the predicate value. -/
theorem find?_map_invar {α : Type} (f : α → α) (p : α → Bool) (hp : ∀ x, p (f x) = p x)
    (l : List α) : (l.map f).find? p = (l.find? p).map f := by
  rw [List.find?_map]
  have : l.find? (p ∘ f) = l.find? p :=
    find_eq_of_eq_on l (p := p ∘ f) (q := p) (fun x _ => hp x)
  rw [this]

/-- lookupA after setA at the same key. -/
theorem lookupA_setA_self {α : Type} (l : List (String × α)) (k : String) (v : α) :
    lookupA (setA l k v) k = some v := by
  unfold lookupA setA
  by_cases hany : l.any (fun p => p.1 == k)
  · rw [if_pos hany]
    rw [find?_map_invar (fun p => if p.1 == k then (k, v) else p) (fun p => p.1 == k)
      (fun x => by by_cases hx : x.1 == k <;> simp [hx])]
    rcases List.any_eq_true.1 hany with ⟨p, hp, hpk⟩
    rcases (List.find?_isSome.2 ⟨p, hp, hpk⟩ : (l.find? (fun p => p.1 == k)).isSome = true)
      |> Option.isSome_iff_exists.1 with ⟨q, hq⟩
    have hqk : q.1 = k := by simpa using List.find?_some hq
    simp [hq, hqk]
  · rw [if_neg hany]
    have hnone : l.find? (fun p => p.1 == k) = none := by
      rw [List.find?_eq_none]
      intro x hx hk
      exact hany (List.any_eq_true.2 ⟨x, hx, hk⟩)
    simp [List.find?_append, hnone]

/-- lookupA after setA at a different key. -/
theorem lookupA_setA_other {α : Type} (l : List (String × α)) (k k0 : String) (v : α)
    (h : k0 ≠ k) : lookupA (setA l k v) k0 = lookupA l k0 := by
  unfold lookupA setA
  by_cases hany : l.any (fun p => p.1 == k)
  · rw [if_pos hany]
    rw [find?_map_invar (fun p => if p.1 == k then (k, v) else p) (fun p => p.1 == k0)
      (fun x => by
        by_cases hx : x.1 == k
        · have hxk : x.1 = k := by simpa using hx
          simp [hx, hxk, Ne.symm h]
        · simp [hx])]
    cases hfind : l.find? (fun p => p.1 == k0) with
    | none => rfl
    | some q =>
      have hqk : q.1 = k0 := by simpa using List.find?_some hfind
      simp [hqk, if_neg h]
  · rw [if_neg hany]
    cases hfind : l.find? (fun p => p.1 == k0) with
    | none => simp [List.find?_append, hfind, Ne.symm h]
    | some q => simp [List.find?_append, hfind]

/-- lookupA after eraseA at the erased key. -/
theorem lookupA_eraseA_self {α : Type} (l : List (String × α)) (k : String) :
    lookupA (eraseA l k) k = none := by
  unfold lookupA eraseA
  rw [List.find?_filter]
  have : (l.find? (fun a => (a.1 == k) && (a.1 != k))) = none := by
    rw [List.find?_eq_none]
    intro x _ hx
    simp at hx
  simp [this]

/-- lookupA after eraseA at a different key. -/
theorem lookupA_eraseA_other {α : Type} (l : List (String × α)) (k k0 : String)
    (h : k0 ≠ k) : lookupA (eraseA l k) k0 = lookupA l k0 := by
  unfold lookupA eraseA
  rw [List.find?_filter, find_eq_of_eq_on l (q := fun p => p.1 == k0)]
  intro x _
  by_cases hx : x.1 == k0
  · have hxk : x.1 = k0 := by simpa using hx
    simp [hx, hxk, h]
  · simp [hx]

/-- setA keeps the key list when the key is already bound. -/
theorem keys_setA_of_any {α : Type} (l : List (String × α)) (k : String) (v : α)
    (h : l.any (fun p => p.1 == k)) :
    (setA l k v).map (fun p => p.1) = l.map (fun p => p.1) := by
  unfold setA
  rw [if_pos h, List.map_map]
  refine List.map_congr_left (fun p _ => ?_)
  by_cases hp : p.1 == k
  · have hpk : p.1 = k := by simpa using hp
    simp [hpk]
  · have hpk : ¬ p.1 = k := by simpa using hp
    simp [hpk]

/-- setA preserves key uniqueness. -/
theorem keys_setA_nodup {α : Type} (l : List (String × α)) (k : String) (v : α)
    (h : (l.map (fun p => p.1)).Nodup) : ((setA l k v).map (fun p => p.1)).Nodup := by
  by_cases hany : l.any (fun p => p.1 == k)
  · rw [keys_setA_of_any l k v hany]; exact h
  · unfold setA
    rw [if_neg hany, List.map_append]
    refine List.Nodup.append h (List.nodup_singleton k) ?_
    intro a ha hb
    simp at hb
    subst hb
    rcases List.mem_map.1 ha with ⟨p, hp, hpk⟩
    exact hany (List.any_eq_true.2 ⟨p, hp, by simp [hpk]⟩)

/-- eraseA preserves key uniqueness. -/
theorem keys_eraseA_nodup {α : Type} (l : List (String × α)) (k : String)
    (h : (l.map (fun p => p.1)).Nodup) : ((eraseA l k).map (fun p => p.1)).Nodup :=
  List.Nodup.sublist (List.Sublist.map _ (List.filter_sublist l)) h

/-- Membership in setA. -/
theorem mem_setA {α : Type} {l : List (String × α)} {k : String} {v : α} {p : String × α}
    (h : p ∈ setA l k v) : p = (k, v) ∨ (p ∈ l ∧ p.1 ≠ k) := by
  unfold setA at h
  by_cases hany : l.any (fun q => q.1 == k)
  · rw [if_pos hany] at h
    rcases List.mem_map.1 h with ⟨q, hq, hqe⟩
    by_cases hqk : q.1 == k
    · left; rw [← hqe]; simp [hqk]
    · right
      rw [← hqe]
      simp only [if_neg hqk]
      exact ⟨hq, by simpa using hqk⟩
  · rw [if_neg hany] at h
    rcases List.mem_append.1 h with h | h
    · right
      refine ⟨h, fun hk => ?_⟩
      exact hany (List.any_eq_true.2 ⟨p, h, by simp [hk]⟩)
    · left; simpa using h

/-- In a map with unique keys the lookup of the key of a member returns
its value. -/
theorem lookupA_of_mem_nodup {α : Type} {l : List (String × α)} {p : String × α}
    (hnd : (l.map (fun q => q.1)).Nodup) (hmem : p ∈ l) : lookupA l p.1 = some p.2 := by
  unfold lookupA
  have hsome : (l.find? (fun q => q.1 == p.1)).isSome :=
    List.find?_isSome.2 ⟨p, hmem, by simp⟩
  rcases Option.isSome_iff_exists.1 hsome with ⟨q, hq⟩
  have hqmem := List.mem_of_find?_eq_some hq
  have hqk : q.1 = p.1 := by simpa using List.find?_some hq
  have : q = p := by
    have := List.inj_on_of_nodup_map hnd hqmem hmem hqk
    exact this
  rw [hq, this]
  rfl

/-- lookupA is none exactly when no member carries the key. -/
theorem lookupA_eq_none_iff {α : Type} {l : List (String × α)} {k : String} :
    lookupA l k = none ↔ ∀ p ∈ l, p.1 ≠ k := by
  unfold lookupA
  constructor
  · intro h p hp hk
    cases hfind : l.find? (fun q => q.1 == k) with
    | none =>
      rw [List.find?_eq_none] at hfind
      exact hfind p hp (by simp [hk])
    | some q => rw [hfind] at h; simp at h
  · intro h
    have : l.find? (fun q => q.1 == k) = none :=
      List.find?_eq_none.2 (fun p hp => by simpa using h p hp)
    simp [this]

/-- lookupA returns some exactly for a member pair with that key. -/
theorem lookupA_eq_some_mem {α : Type} {l : List (String × α)} {k : String} {v : α}
    (h : lookupA l k = some v) : (k, v) ∈ l := by
  unfold lookupA at h
  cases hfind : l.find? (fun q => q.1 == k) with
  | none => rw [hfind] at h; simp at h
  | some q =>
    rw [hfind] at h
    have hqmem := List.mem_of_find?_eq_some hfind
    have hqk : q.1 = k := by simpa using List.find?_some hfind
    have hqv : q.2 = v := by simpa using h
    have : q = (k, v) := Prod.ext hqk hqv
    rw [← this]
    exact hqmem

/-! Lemmas on the pairing store. -/

/-- A status update rewrites the stored status of its own code. -/
theorem codeStatus_update_self (db : Db) (code : String) (status : PairingStatus)
    (h : (PairingService.codeStatus db code).isSome) :
    PairingService.codeStatus (dbUpdatePairingRequestStatus db code status).2 code
      = some status := by
  unfold PairingService.codeStatus at h ⊢
  unfold dbUpdatePairingRequestStatus
  simp only []
  have hmi := find?_map_invar
    (f := fun r : IChannelPairingRequest => if r.code == code then { r with status := status } else r)
    (p := fun r : IChannelPairingRequest => r.code == code)
    (fun x => by by_cases hx : x.code == code <;> simp [hx]) db.pairingCodes
  rw [hmi]
  cases hfind : db.pairingCodes.find? (fun r => r.code == code) with
  | none => rw [hfind] at h; simp at h
  | some r =>
    have hr : r.code = code := by simpa using List.find?_some hfind
    simp [hr]

/-- A status update leaves every other code alone. -/
theorem codeStatus_update_other (db : Db) (code1 code0 : String) (status : PairingStatus)
    (h : code1 ≠ code0) :
    PairingService.codeStatus (dbUpdatePairingRequestStatus db code1 status).2 code0
      = PairingService.codeStatus db code0 := by
  unfold PairingService.codeStatus
  unfold dbUpdatePairingRequestStatus
  simp only []
  have hmi := find?_map_invar
    (f := fun r : IChannelPairingRequest => if r.code == code1 then { r with status := status } else r)
    (p := fun r : IChannelPairingRequest => r.code == code0)
    (fun x => by by_cases hx : x.code == code1 <;> simp [hx]) db.pairingCodes
  rw [hmi]
  cases hfind : db.pairingCodes.find? (fun r => r.code == code0) with
  | none => rfl
  | some r =>
    have hr : r.code = code0 := by simpa using List.find?_some hfind
    simp [hr, Ne.symm h]

/-- Creating a user row never touches the pairing-code table. -/
theorem codeStatus_createChannelUser (db : Db) (u : IChannelUser) (code0 : String) :
    PairingService.codeStatus (dbCreateChannelUser db u).2 code0
      = PairingService.codeStatus db code0 := by
  unfold dbCreateChannelUser
  cases db.channelUserInsertError with
  | some e => rfl
  | none =>
    by_cases hc : db.channelUsers.any (fun x => x.id == u.id) <;>
      simp [hc, PairingService.codeStatus]

/-- The fresh-code arm of generation never changes an existing stored
status: it either throws leaving the table alone, or appends a new row
under a code the table does not hold. -/
theorem codeStatus_generateFresh (db : Db) (now : Nat) (codes : List String)
    (platformUserId platformType : String) (displayName : Option String)
    (code0 : String) (st : PairingStatus)
    (h : PairingService.codeStatus db code0 = some st) :
    PairingService.codeStatus
        (PairingService.generateFresh db now codes platformUserId platformType displayName).2 code0
      = some st := by
  unfold PairingService.generateFresh
  cases hg : PairingService.generateUniqueCode db now codes with
  | none => simpa using h
  | some c =>
    simp only []
    unfold dbCreatePairingRequest
    by_cases hc : db.pairingCodes.any (fun r => r.code == c)
    · simp only [hc, if_true]
      simpa using h
    · simp only [hc, if_false, Bool.false_eq_true]
      unfold PairingService.codeStatus at h ⊢
      rcases Option.map_eq_some'.1 h with ⟨r, hr, hrst⟩
      simp [List.find?_append, hr, hrst]

/-- generatePairingCode never changes an existing stored status. -/
theorem codeStatus_generate (db : Db) (now : Nat) (codes : List String)
    (platformUserId platformType : String) (displayName : Option String)
    (code0 : String) (st : PairingStatus)
    (h : PairingService.codeStatus db code0 = some st) :
    PairingService.codeStatus
        (PairingService.generatePairingCode db now codes platformUserId platformType displayName).2
        code0 = some st := by
  unfold PairingService.generatePairingCode
  simp only [dbGetPendingPairingRequests, Option.isSome_some, Bool.and_self, if_true]
  cases hfind : (db.pairingCodes.filter
      (fun r => r.status == PairingStatus.pending && decide (r.expiresAt > now))).find?
      (fun r => r.platformUserId == platformUserId && r.platformType == platformType &&
        r.status == PairingStatus.pending) with
  | none =>
    simp only [Option.getD_some]
    rw [hfind]
    exact codeStatus_generateFresh db now codes platformUserId platformType displayName code0 st h
  | some ex =>
    simp only [Option.getD_some]
    rw [hfind]
    by_cases hex : decide (ex.expiresAt > now) = true
    · simp only [hex, if_true]
      exact h
    · simp only [hex, if_false]
      exact codeStatus_generateFresh db now codes platformUserId platformType displayName code0 st h

/-- On the live-pending row set the identity predicate of
generatePairingCode agrees with the stricter one of
getPendingRequestForUser. -/
theorem find?_pending_identity_eq (db : Db) (now : Nat) (platformUserId platformType : String) :
    (db.pairingCodes.filter
        (fun r => r.status == PairingStatus.pending && decide (r.expiresAt > now))).find?
      (fun r => r.platformUserId == platformUserId && r.platformType == platformType &&
        r.status == PairingStatus.pending)
    = (db.pairingCodes.filter
        (fun r => r.status == PairingStatus.pending && decide (r.expiresAt > now))).find?
      (fun r => r.platformUserId == platformUserId && r.platformType == platformType &&
        r.status == PairingStatus.pending && decide (r.expiresAt > now)) := by
  apply find_eq_of_eq_on _
  intro x hx
  have hmem := (List.mem_filter.1 hx).2
  simp only [Bool.and_eq_true] at hmem
  simp [hmem.2]

/-- C4: generatePairingCode is idempotent while a live pending request
exists for the identity: the call returns exactly that request's code
and expiresAt and leaves the store unchanged, so an immediate second
call returns the same pair and creates no second pending request. -/
theorem c4_generate_pairing_code_idempotent (db : Db) (now : Nat) (codes : List String)
    (platformUserId platformType : String) (displayName : Option String)
    (r : IChannelPairingRequest)
    (h : PairingService.getPendingRequestForUser db now platformUserId platformType = some r) :
    PairingService.generatePairingCode db now codes platformUserId platformType displayName
      = (Except.ok (r.code, r.expiresAt), db) ∧
    PairingService.generatePairingCode
        (PairingService.generatePairingCode db now codes platformUserId platformType displayName).2
        now codes platformUserId platformType displayName
      = PairingService.generatePairingCode db now codes platformUserId platformType displayName := by
  have hq : (db.pairingCodes.filter
      (fun r => r.status == PairingStatus.pending && decide (r.expiresAt > now))).find?
      (fun r => r.platformUserId == platformUserId && r.platformType == platformType &&
        r.status == PairingStatus.pending && decide (r.expiresAt > now)) = some r := by
    simpa [PairingService.getPendingRequestForUser, dbGetPendingPairingRequests] using h
  have hrexp : decide (r.expiresAt > now) = true := by
    have hcomp := List.find?_some hq
    simp only [Bool.and_eq_true] at hcomp
    exact hcomp.2
  have hfind3 : (db.pairingCodes.filter
      (fun r => r.status == PairingStatus.pending && decide (r.expiresAt > now))).find?
      (fun r => r.platformUserId == platformUserId && r.platformType == platformType &&
        r.status == PairingStatus.pending) = some r := by
    rw [find?_pending_identity_eq]
    exact hq
  have h1 : PairingService.generatePairingCode db now codes platformUserId platformType displayName
      = (Except.ok (r.code, r.expiresAt), db) := by
    unfold PairingService.generatePairingCode
    simp only [dbGetPendingPairingRequests, Option.isSome_some, Bool.and_self, if_true,
      Option.getD_some]
    rw [hfind3]
    simp [hrexp]
  refine ⟨h1, ?_⟩
  have h2 : (PairingService.generatePairingCode db now codes platformUserId platformType
      displayName).2 = db := by rw [h1]
  rw [h2, h1]

/-- C5: expiry is evaluated by clock comparison at read time, not only
by the sweep: approvePairing on a time-expired code fails with the
expired error and rewrites the stored status to expired, and neither
getPendingRequestForUser nor getPendingRequests ever returns a request
whose expiresAt is not in the future, whatever its stored status. -/
theorem c5_expiry_evaluated_at_read_time :
    (∀ (db : Db) (now : Nat) (freshUserId code : String) (r : IChannelPairingRequest),
      PairingService.getPairingRequest db code = some r → r.expiresAt < now →
      PairingService.approvePairing db now freshUserId code
        = (⟨false, none, some "Pairing code has expired"⟩,
           (dbUpdatePairingRequestStatus db code PairingStatus.expired).2) ∧
      PairingService.codeStatus (PairingService.approvePairing db now freshUserId code).2 code
        = some PairingStatus.expired) ∧
    (∀ (db : Db) (now : Nat) (platformUserId platformType : String)
      (r : IChannelPairingRequest),
      PairingService.getPendingRequestForUser db now platformUserId platformType = some r →
      now < r.expiresAt ∧ r.status = PairingStatus.pending) ∧
    (∀ (db : Db) (now : Nat) (r : IChannelPairingRequest),
      r ∈ PairingService.getPendingRequests db now →
      now < r.expiresAt ∧ r.status = PairingStatus.pending) := by
  refine ⟨?_, ?_, ?_⟩
  · intro db now freshUserId code r hfind hexp
    have happ : PairingService.approvePairing db now freshUserId code
        = (⟨false, none, some "Pairing code has expired"⟩,
           (dbUpdatePairingRequestStatus db code PairingStatus.expired).2) := by
      unfold PairingService.approvePairing
      simp [hfind, hexp]
    refine ⟨happ, ?_⟩
    rw [happ]
    apply codeStatus_update_self
    have hfind2 : db.pairingCodes.find? (fun x => x.code == code) = some r := by
      simpa [PairingService.getPairingRequest, dbGetPairingRequestByCode] using hfind
    simp [PairingService.codeStatus, hfind2]
  · intro db now platformUserId platformType r h
    have hq : (db.pairingCodes.filter
        (fun x => x.status == PairingStatus.pending && decide (x.expiresAt > now))).find?
        (fun x => x.platformUserId == platformUserId && x.platformType == platformType &&
          x.status == PairingStatus.pending && decide (x.expiresAt > now)) = some r := by
      simpa [PairingService.getPendingRequestForUser, dbGetPendingPairingRequests] using h
    have hcomp := List.find?_some hq
    simp only [Bool.and_eq_true, decide_eq_true_eq, beq_iff_eq] at hcomp
    exact ⟨hcomp.2, hcomp.1.2⟩
  · intro db now r h
    have h2 : r ∈ (db.pairingCodes.filter
        (fun x => x.status == PairingStatus.pending && decide (x.expiresAt > now))).filter
        (fun x => x.status == PairingStatus.pending && decide (x.expiresAt > now)) := by
      simpa [PairingService.getPendingRequests, dbGetPendingPairingRequests] using h
    have hcomp := (List.mem_filter.1 h2).2
    simp only [Bool.and_eq_true, decide_eq_true_eq, beq_iff_eq] at hcomp
    exact ⟨hcomp.2, hcomp.1⟩

/-- C5 witness: the three read paths evaluated on concrete stores whose
stored status is still pending. -/
theorem c5_expiry_evaluated_at_read_time_witness :
    PairingService.codeStatus
        (PairingService.approvePairing
          ⟨[⟨"123456", "u1", "telegram", none, 0, 100, PairingStatus.pending⟩], [], none⟩
          200 "fresh" "123456").2 "123456" = some PairingStatus.expired ∧
    (5 < 1000 ∧ PairingStatus.pending = PairingStatus.pending) ∧
    (7 < 1000 ∧ PairingStatus.pending = PairingStatus.pending) := by
  refine ⟨?_, ?_, ?_⟩
  · exact (c5_expiry_evaluated_at_read_time.1
      ⟨[⟨"123456", "u1", "telegram", none, 0, 100, PairingStatus.pending⟩], [], none⟩
      200 "fresh" "123456"
      ⟨"123456", "u1", "telegram", none, 0, 100, PairingStatus.pending⟩
      (by decide) (by decide)).2
  · exact c5_expiry_evaluated_at_read_time.2.1
      ⟨[⟨"222222", "u2", "telegram", none, 0, 1000, PairingStatus.pending⟩], [], none⟩
      5 "u2" "telegram"
      ⟨"222222", "u2", "telegram", none, 0, 1000, PairingStatus.pending⟩ (by decide)
  · exact c5_expiry_evaluated_at_read_time.2.2
      ⟨[⟨"333333", "u3", "telegram", none, 0, 1000, PairingStatus.pending⟩], [], none⟩
      7 ⟨"333333", "u3", "telegram", none, 0, 1000, PairingStatus.pending⟩ (by decide)

/-- C10: when approval of a valid pending request must create a
ChannelUser and the persistence insert fails, approvePairing surfaces
the persistence error with success false and leaves the store untouched,
so the request stays pending and the approval can be retried. -/
theorem c10_approve_persistence_failure_preserves_pending (db : Db) (now : Nat)
    (freshUserId code e : String) (r : IChannelPairingRequest)
    (hfind : PairingService.getPairingRequest db code = some r)
    (hexp : ¬ r.expiresAt < now)
    (hpend : r.status = PairingStatus.pending)
    (hnouser : db.channelUsers.find?
      (fun u => u.platformUserId == r.platformUserId && u.platformType == r.platformType) = none)
    (hfault : db.channelUserInsertError = some e) :
    PairingService.approvePairing db now freshUserId code = (⟨false, none, some e⟩, db) ∧
    PairingService.codeStatus db code = some PairingStatus.pending := by
  constructor
  · unfold PairingService.approvePairing
    simp [hfind, hexp, hpend, dbGetChannelUserByPlatform, hnouser, dbCreateChannelUser, hfault]
  · have hfind2 : db.pairingCodes.find? (fun x => x.code == code) = some r := by
      simpa [PairingService.getPairingRequest, dbGetPairingRequestByCode] using hfind
    simp [PairingService.codeStatus, hfind2, hpend]

/-- C10 witness: a concrete pending request approved against a store
whose user insert fails. -/
theorem c10_approve_persistence_failure_preserves_pending_witness :
    PairingService.approvePairing
        ⟨[⟨"777777", "u9", "telegram", none, 0, 1000, PairingStatus.pending⟩], [],
          some "database is locked"⟩ 10 "fresh_id" "777777"
      = (⟨false, none, some "database is locked"⟩,
         ⟨[⟨"777777", "u9", "telegram", none, 0, 1000, PairingStatus.pending⟩], [],
          some "database is locked"⟩) ∧
    PairingService.codeStatus
        ⟨[⟨"777777", "u9", "telegram", none, 0, 1000, PairingStatus.pending⟩], [],
          some "database is locked"⟩ "777777" = some PairingStatus.pending :=
  c10_approve_persistence_failure_preserves_pending
    ⟨[⟨"777777", "u9", "telegram", none, 0, 1000, PairingStatus.pending⟩], [],
      some "database is locked"⟩ 10 "fresh_id" "777777" "database is locked"
    ⟨"777777", "u9", "telegram", none, 0, 1000, PairingStatus.pending⟩
    (by decide) (by decide) (by decide) (by decide) (by decide)

/-- The expiry fold of refreshPairingCode only rewrites the statuses of
codes drawn from the given row list. -/
theorem codeStatus_refresh_fold (platformUserId platformType code0 : String)
    (st : PairingStatus) :
    ∀ (l : List IChannelPairingRequest) (db : Db),
      PairingService.codeStatus db code0 = some st →
      (∀ x ∈ l, x.code ≠ code0) →
      PairingService.codeStatus
        (l.foldl (fun d x =>
          if x.platformUserId == platformUserId && x.platformType == platformType &&
             x.status == PairingStatus.pending then
            (dbUpdatePairingRequestStatus d x.code PairingStatus.expired).2
          else d) db) code0 = some st
  | [], _, h, _ => h
  | x :: l, db, h, hl => by
    rw [List.foldl_cons]
    refine codeStatus_refresh_fold platformUserId platformType code0 st l _ ?_
      (fun y hy => hl y (List.mem_cons_of_mem x hy))
    by_cases hx : (x.platformUserId == platformUserId && x.platformType == platformType &&
        x.status == PairingStatus.pending) = true
    · rw [if_pos hx, codeStatus_update_other _ _ _ _ (hl x (List.mem_cons_self x l))]
      exact h
    · rw [if_neg hx]
      exact h

/-- C2 counterexample: rejectPairing does not check the stored status,
so a request that is already approved is flipped to rejected with a
success result, violating terminal-status stability as claimed. -/
theorem c2_counterexample :
    PairingService.codeStatus
        ⟨[⟨"111111", "user1", "telegram", none, 0, 1000, PairingStatus.approved⟩], [], none⟩
        "111111" = some PairingStatus.approved ∧
    (PairingService.rejectPairing
        ⟨[⟨"111111", "user1", "telegram", none, 0, 1000, PairingStatus.approved⟩], [], none⟩
        "111111").1.success = true ∧
    PairingService.codeStatus
        (PairingService.rejectPairing
          ⟨[⟨"111111", "user1", "telegram", none, 0, 1000, PairingStatus.approved⟩], [], none⟩
          "111111").2 "111111" = some PairingStatus.rejected := by
  refine ⟨?_, ?_, ?_⟩ <;> decide

/-- C2 amended: a request whose stored status is approved or rejected is
preserved by generatePairingCode, by refreshPairingCode (codes being
unique), and by approvePairing or rejectPairing addressed to any other
code; approvePairing on the terminal code itself, when it is not also
time-expired, returns success false with an error naming the stored
status and leaves the store unchanged; but rejectPairing on the code
itself unconditionally rewrites the status to rejected (and approvePairing
on a time-expired terminal code rewrites it to expired). -/
theorem c2_amended_terminal_status_stability (db : Db) (code0 : String) (st : PairingStatus)
    (hst : PairingService.codeStatus db code0 = some st)
    (hterm : st = PairingStatus.approved ∨ st = PairingStatus.rejected) :
    (∀ (now : Nat) (codes : List String) (platformUserId platformType : String)
      (displayName : Option String),
      PairingService.codeStatus
        (PairingService.generatePairingCode db now codes platformUserId platformType
          displayName).2 code0 = some st) ∧
    ((db.pairingCodes.map (fun r => r.code)).Nodup →
      ∀ (now : Nat) (codes : List String) (platformUserId platformType : String)
        (displayName : Option String),
      PairingService.codeStatus
        (PairingService.refreshPairingCode db now codes platformUserId platformType
          displayName).2 code0 = some st) ∧
    (∀ (now : Nat) (freshUserId : String) (r : IChannelPairingRequest),
      PairingService.getPairingRequest db code0 = some r → ¬ r.expiresAt < now →
      PairingService.approvePairing db now freshUserId code0
        = (⟨false, none, some ("Pairing request already " ++ st.text)⟩, db)) ∧
    (∀ (now : Nat) (freshUserId code1 : String), code1 ≠ code0 →
      PairingService.codeStatus (PairingService.approvePairing db now freshUserId code1).2 code0
        = some st) ∧
    (∀ code1 : String, code1 ≠ code0 →
      PairingService.codeStatus (PairingService.rejectPairing db code1).2 code0 = some st) ∧
    PairingService.codeStatus (PairingService.rejectPairing db code0).2 code0
      = some PairingStatus.rejected := by
  rcases Option.map_eq_some'.1 (by
    simpa [PairingService.codeStatus] using hst) with ⟨w, hw, hwst⟩
  have hstp : st ≠ PairingStatus.pending := by
    rcases hterm with h | h <;> simp [h]
  refine ⟨?_, ?_, ?_, ?_, ?_, ?_⟩
  · intro now codes platformUserId platformType displayName
    exact codeStatus_generate db now codes platformUserId platformType displayName code0 st hst
  · intro hnd now codes platformUserId platformType displayName
    unfold PairingService.refreshPairingCode
    simp only [dbGetPendingPairingRequests, Option.isSome_some, Bool.and_self, if_true,
      Option.getD_some]
    apply codeStatus_generate
    apply codeStatus_refresh_fold platformUserId platformType code0 st _ db hst
    intro x hx hxcode
    have hxmem := List.mem_filter.1 hx
    have hxpend : x.status = PairingStatus.pending := by
      have := hxmem.2
      simp only [Bool.and_eq_true, beq_iff_eq] at this
      exact this.1
    have hwmem := List.mem_of_find?_eq_some hw
    have hwcode : w.code = code0 := by simpa using List.find?_some hw
    have : x = w := List.inj_on_of_nodup_map hnd hxmem.1 hwmem (hxcode.trans hwcode.symm)
    rw [this, hwst] at hxpend
    exact hstp hxpend
  · intro now freshUserId r hr hexp
    have hr2 : db.pairingCodes.find? (fun x => x.code == code0) = some r := by
      simpa [PairingService.getPairingRequest, dbGetPairingRequestByCode] using hr
    have hrw : r = w := by rw [hr2] at hw; exact Option.some_inj.1 hw
    have hrst : r.status = st := by rw [hrw, hwst]
    have hrne : (r.status != PairingStatus.pending) = true := by
      simp [hrst, hstp]
    unfold PairingService.approvePairing
    simp [hr, hexp, hrne, hrst]
    intro hc
    exact absurd hc hstp
  · intro now freshUserId code1 hne
    unfold PairingService.approvePairing
    cases hg : PairingService.getPairingRequest db code1 with
    | none => exact hst
    | some req =>
      simp only []
      by_cases hexp : (decide (req.expiresAt < now)) = true
      · simp only [hexp, if_true]
        rw [codeStatus_update_other _ _ _ _ hne]
        exact hst
      · simp only [hexp, if_false, Bool.false_eq_true]
        by_cases hpend : (req.status != PairingStatus.pending) = true
        · simp only [hpend, if_true]
          exact hst
        · simp only [hpend, if_false, Bool.false_eq_true, dbGetChannelUserByPlatform]
          simp only [if_true]
          cases hu : db.channelUsers.find?
              (fun u => u.platformUserId == req.platformUserId &&
                u.platformType == req.platformType) with
          | some u =>
            simp only []
            rw [codeStatus_update_other _ _ _ _ hne]
            exact hst
          | none =>
            simp only [dbCreateChannelUser]
            cases hf : db.channelUserInsertError with
            | some e => simpa using hst
            | none =>
              by_cases hconf : (db.channelUsers.any (fun x => x.id == freshUserId)) = true
              · simp only [hconf, if_true]
                simpa using hst
              · simp only [hconf, if_false, Bool.false_eq_true, Bool.not_true]
                rw [codeStatus_update_other _ _ _ _ hne]
                simpa [PairingService.codeStatus] using hst
  · intro code1 hne
    unfold PairingService.rejectPairing
    cases hg : PairingService.getPairingRequest db code1 with
    | none => exact hst
    | some req =>
      simp only []
      rw [codeStatus_update_other _ _ _ _ hne]
      exact hst
  · unfold PairingService.rejectPairing
    have hr : PairingService.getPairingRequest db code0 = some w := by
      simpa [PairingService.getPairingRequest, dbGetPairingRequestByCode] using hw
    rw [hr]
    apply codeStatus_update_self
    simp [PairingService.codeStatus, hw]

/-- C2 amended witness: the amended guarantees evaluated on a concrete
store holding one approved request. -/
theorem c2_amended_terminal_status_stability_witness :
    PairingService.codeStatus
        (PairingService.generatePairingCode
          ⟨[⟨"111111", "user1", "telegram", none, 0, 1000, PairingStatus.approved⟩], [], none⟩
          5 ["999999"] "userX" "telegram" none).2 "111111" = some PairingStatus.approved ∧
    PairingService.approvePairing
        ⟨[⟨"111111", "user1", "telegram", none, 0, 1000, PairingStatus.approved⟩], [], none⟩
        5 "fresh" "111111"
      = (⟨false, none, some ("Pairing request already " ++ PairingStatus.approved.text)⟩,
         ⟨[⟨"111111", "user1", "telegram", none, 0, 1000, PairingStatus.approved⟩], [], none⟩) ∧
    PairingService.codeStatus
        (PairingService.rejectPairing
          ⟨[⟨"111111", "user1", "telegram", none, 0, 1000, PairingStatus.approved⟩], [], none⟩
          "111111").2 "111111" = some PairingStatus.rejected := by
  have h := c2_amended_terminal_status_stability
    ⟨[⟨"111111", "user1", "telegram", none, 0, 1000, PairingStatus.approved⟩], [], none⟩
    "111111" PairingStatus.approved (by decide) (Or.inl rfl)
  exact ⟨h.1 5 ["999999"] "userX" "telegram" none,
    h.2.2.1 5 "fresh" ⟨"111111", "user1", "telegram", none, 0, 1000, PairingStatus.approved⟩
      (by decide) (by decide),
    h.2.2.2.2.2⟩

/-- C6: the entry command, and any message from an unauthorized
identity, short-circuit the router into the pairing-show handler: the
call performs exactly the pairing-show step and returns with the session
registry untouched — no ChannelUser resolution, no session resolution or
creation, no action dispatch and no chat handling. -/
theorem c6_unauthorized_routes_to_pairing (db : Db) (sm : SessionManager.SMState)
    (pluginTypes : List String) (conversationResult : Except String String)
    (freshSessionId : String) (now : Nat)
    (message : ActionExecutor.IUnifiedIncomingMessage)
    (hplugin : (pluginTypes.find? (fun t => t == message.platform)).isSome)
    (hgate : (message.content.type = "command" ∧ message.content.text = "/start") ∨
      PairingService.isUserAuthorized db message.userId message.platform = false) :
    ActionExecutor.handleIncomingMessage db sm pluginTypes conversationResult freshSessionId now
      message = ([ActionExecutor.RouteEffect.pairingShown], sm) := by
  unfold ActionExecutor.handleIncomingMessage
  rcases Option.isSome_iff_exists.1 hplugin with ⟨t, ht⟩
  rw [ht]
  rcases hgate with ⟨h1, h2⟩ | hauth
  · simp [h1, h2]
  · by_cases hcmd : (message.content.type == "command" && message.content.text == "/start") = true
    · simp [hcmd]
    · simp [hcmd, hauth]

/-- C6 witness: a plain text message from an identity with no user row
draws the pairing response and leaves the registry unchanged. -/
theorem c6_unauthorized_routes_to_pairing_witness :
    ActionExecutor.handleIncomingMessage ⟨[], [], none⟩ ⟨[], []⟩ ["telegram"]
        (Except.ok "conv1") "s1" 0
        ⟨"m1", "telegram", "chat1", "u1", none, ⟨"text", "hello"⟩, none⟩
      = ([ActionExecutor.RouteEffect.pairingShown], ⟨[], []⟩) :=
  c6_unauthorized_routes_to_pairing ⟨[], [], none⟩ ⟨[], []⟩ ["telegram"]
    (Except.ok "conv1") "s1" 0
    ⟨"m1", "telegram", "chat1", "u1", none, ⟨"text", "hello"⟩, none⟩
    (by decide) (Or.inr (by decide))

/-- A persisted status update rewrites the status of every row holding
the plugin id. -/
theorem mem_update_plugin_status (rows : List PluginConfigRow) (pluginId status : String)
    (lastConnected : Option Nat) :
    ∀ row ∈ dbUpdateChannelPluginStatus rows pluginId status lastConnected,
      row.id = pluginId → row.status = status := by
  intro row hrow hid
  rcases List.mem_map.1 hrow with ⟨r, _, heq⟩
  by_cases h : (r.id == pluginId) = true
  · rw [← heq]
    simp [h]
  · rw [← heq] at hid ⊢
    rw [if_neg h] at hid ⊢
    exact absurd hid (by simpa using h)

/-- C7: when the plugin's initialize or start hook throws during
startPlugin, the manager caches the error string for the plugin id
(retrievable through the status query), persists status error, emits a
status-changed event carrying the error, re-raises the exception, and
the plugin is absent from the running-instance map. -/
theorem c7_start_failure_is_recorded_and_reraised (st : PluginManager.PMState)
    (config : PluginConfigRow) (registeredTypes : List String) (now : Nat) (e : String)
    (startHookError : Option String)
    (hnot : lookupA st.plugins config.id = none)
    (hreg : registeredTypes.contains config.type = true) :
    (let res := PluginManager.startPlugin st config registeredTypes (some e) startHookError now
     res.1 = Except.error e ∧
     lookupA res.2.pluginErrors config.id = some ("Plugin initialization failed: " ++ e) ∧
     lookupA res.2.plugins config.id = none ∧
     res.2.events.getLast? = some (config.id,
       ⟨config.id, config.type, config.name, config.enabled, false, "error",
        config.lastConnected, some ("Plugin initialization failed: " ++ e), config.hasToken⟩) ∧
     (∀ row ∈ res.2.dbPlugins, row.id = config.id →
       row.status = "error" ∧
       (PluginManager.buildPluginStatus res.2 row).error
           = some ("Plugin initialization failed: " ++ e) ∧
       (PluginManager.buildPluginStatus res.2 row).status = "error")) ∧
    (let res := PluginManager.startPlugin st config registeredTypes none (some e) now
     res.1 = Except.error e ∧
     lookupA res.2.pluginErrors config.id = some ("Plugin start failed: " ++ e) ∧
     lookupA res.2.plugins config.id = none ∧
     res.2.events.getLast? = some (config.id,
       ⟨config.id, config.type, config.name, config.enabled, false, "error",
        config.lastConnected, some ("Plugin start failed: " ++ e), config.hasToken⟩) ∧
     (∀ row ∈ res.2.dbPlugins, row.id = config.id →
       row.status = "error" ∧
       (PluginManager.buildPluginStatus res.2 row).error
           = some ("Plugin start failed: " ++ e) ∧
       (PluginManager.buildPluginStatus res.2 row).status = "error")) := by
  constructor
  · show (PluginManager.startPlugin st config registeredTypes (some e) startHookError now).1
        = Except.error e ∧ _
    unfold PluginManager.startPlugin
    dsimp only []
    rw [hnot]
    simp only [Option.isSome_none, Bool.false_eq_true, if_false, hreg, Bool.not_true,
      BasePlugin.doInit, PluginManager.emitStatusChangeWithError]
    refine ⟨by trivial, ?_, ?_, ?_, ?_⟩
    · exact lookupA_setA_self _ _ _
    · exact hnot
    · exact List.getLast?_concat _
    · intro row hrow hid
      refine ⟨mem_update_plugin_status _ _ _ _ row hrow hid, ?_, ?_⟩
      · unfold PluginManager.buildPluginStatus
        rw [hid, hnot]
        simp [lookupA_setA_self]
      · unfold PluginManager.buildPluginStatus
        rw [hid, hnot]
        simp [mem_update_plugin_status _ _ _ _ row hrow hid]
  · show (PluginManager.startPlugin st config registeredTypes none (some e) now).1
        = Except.error e ∧ _
    unfold PluginManager.startPlugin
    dsimp only []
    rw [hnot]
    simp only [Option.isSome_none, Bool.false_eq_true, if_false, hreg, Bool.not_true,
      BasePlugin.doInit, BasePlugin.start, bne_self_eq_false, Bool.false_and,
      PluginManager.emitStatusChangeWithError]
    refine ⟨by trivial, ?_, ?_, ?_, ?_⟩
    · exact lookupA_setA_self _ _ _
    · exact hnot
    · exact List.getLast?_concat _
    · intro row hrow hid
      refine ⟨mem_update_plugin_status _ _ _ _ row hrow hid, ?_, ?_⟩
      · unfold PluginManager.buildPluginStatus
        rw [hid, hnot]
        simp [lookupA_setA_self]
      · unfold PluginManager.buildPluginStatus
        rw [hid, hnot]
        simp [mem_update_plugin_status _ _ _ _ row hrow hid]

/-- C7 witness: a telegram plugin whose start hook rejects with an
invalid-token error: the error is cached, persisted and the instance map
stays empty. -/
theorem c7_start_failure_is_recorded_and_reraised_witness :
    (PluginManager.startPlugin
        ⟨[], [], [⟨"p1", "telegram", "TG", true, "stopped", none, true⟩], []⟩
        ⟨"p1", "telegram", "TG", true, "stopped", none, true⟩
        ["telegram"] none (some "401: Unauthorized") 7).1
      = Except.error "401: Unauthorized" ∧
    lookupA (PluginManager.startPlugin
        ⟨[], [], [⟨"p1", "telegram", "TG", true, "stopped", none, true⟩], []⟩
        ⟨"p1", "telegram", "TG", true, "stopped", none, true⟩
        ["telegram"] none (some "401: Unauthorized") 7).2.pluginErrors "p1"
      = some ("Plugin start failed: " ++ "401: Unauthorized") ∧
    lookupA (PluginManager.startPlugin
        ⟨[], [], [⟨"p1", "telegram", "TG", true, "stopped", none, true⟩], []⟩
        ⟨"p1", "telegram", "TG", true, "stopped", none, true⟩
        ["telegram"] none (some "401: Unauthorized") 7).2.plugins "p1" = none := by
  have h := (c7_start_failure_is_recorded_and_reraised
    ⟨[], [], [⟨"p1", "telegram", "TG", true, "stopped", none, true⟩], []⟩
    ⟨"p1", "telegram", "TG", true, "stopped", none, true⟩
    ["telegram"] 7 "401: Unauthorized" none (by decide) (by decide)).2
  exact ⟨h.1, h.2.1, h.2.2.1⟩

/-- C9: BasePlugin.start throws the cannot-start error, without running
the platform start hook and without changing the instance, from any
status other than ready or stopped; and BasePlugin.stop returns silently,
without running the platform stop hook and without changing the
instance, from any status other than running or error. -/
theorem c9_lifecycle_guards (bp : BasePlugin.BP) (hookError : Option String) :
    (bp.status ≠ PluginStatus.ready → bp.status ≠ PluginStatus.stopped →
      BasePlugin.start bp hookError =
        ⟨Except.error ("Cannot start plugin in status: " ++ bp.status.text), bp, false⟩) ∧
    (bp.status ≠ PluginStatus.running → bp.status ≠ PluginStatus.error →
      BasePlugin.stop bp hookError = ⟨Except.ok (), bp, false⟩) := by
  constructor
  · intro h1 h2
    unfold BasePlugin.start
    rw [if_pos]
    simp [h1, h2]
  · intro h1 h2
    unfold BasePlugin.stop
    rw [if_pos]
    simp [h1, h2]

/-- C9 witness: start refused from running even with a succeeding hook,
and stop a no-op from ready. -/
theorem c9_lifecycle_guards_witness :
    BasePlugin.start ⟨PluginStatus.running, none⟩ none =
      ⟨Except.error ("Cannot start plugin in status: " ++ PluginStatus.running.text),
       ⟨PluginStatus.running, none⟩, false⟩ ∧
    BasePlugin.stop ⟨PluginStatus.ready, none⟩ none =
      ⟨Except.ok (), ⟨PluginStatus.ready, none⟩, false⟩ :=
  ⟨(c9_lifecycle_guards ⟨PluginStatus.running, none⟩ none).1 (by decide) (by decide),
   (c9_lifecycle_guards ⟨PluginStatus.ready, none⟩ none).2 (by decide) (by decide)⟩

/-- C8 counterexample: stopPlugin on a running plugin whose stop hook
throws propagates the error and leaves the (errored) runtime in the
running-instance map, so stopPlugin does not always remove the runtime. -/
theorem c8_counterexample :
    (PluginManager.stopPlugin
        ⟨[("p1", ⟨PluginStatus.running, none⟩)], [], [], []⟩ "p1"
        (some "socket hang up")).1 = Except.error "socket hang up" ∧
    lookupA (PluginManager.stopPlugin
        ⟨[("p1", ⟨PluginStatus.running, none⟩)], [], [], []⟩ "p1"
        (some "socket hang up")).2.plugins "p1"
      = some ⟨PluginStatus.error, some "socket hang up"⟩ := by
  refine ⟨?_, ?_⟩ <;> decide

/-- Filtering a fresh setA binding keeps exactly the new pair. -/
theorem filter_setA_of_lookupA_none {α : Type} (l : List (String × α)) (k : String) (v : α)
    (h : lookupA l k = none) :
    (setA l k v).filter (fun p => p.1 == k) = [(k, v)] := by
  have hall := lookupA_eq_none_iff.1 h
  have hany : l.any (fun p => p.1 == k) = false := by
    rw [Bool.eq_false_iff]
    intro hc
    rcases List.any_eq_true.1 hc with ⟨p, hp, hpk⟩
    exact hall p hp (by simpa using hpk)
  unfold setA
  rw [hany]
  simp only [Bool.false_eq_true, if_false]
  rw [List.filter_append]
  have hl : l.filter (fun p => p.1 == k) = [] :=
    List.filter_eq_nil_iff.2 (fun p hp => by simpa using hall p hp)
  simp [hl]

/-- Neither manager operation can duplicate a key of the running map. -/
theorem pm_step_keys_nodup (registeredTypes : List String) (st : PluginManager.PMState)
    (op : PluginManager.PMOp)
    (h : (st.plugins.map (fun p => p.1)).Nodup) :
    (((PluginManager.applyPMOp registeredTypes st op).plugins.map (fun p => p.1)).Nodup) := by
  cases op with
  | start config initHookError startHookError now =>
    show (((PluginManager.startPlugin st config registeredTypes initHookError startHookError
      now).2.plugins.map (fun p => p.1)).Nodup)
    unfold PluginManager.startPlugin
    dsimp only []
    split
    · exact h
    · split
      · exact h
      · split
        · exact h
        · split
          · exact h
          · unfold PluginManager.emitStatusChange
            split
            · exact keys_setA_nodup _ _ _ h
            · exact keys_setA_nodup _ _ _ h
  | stop pluginId stopHookError =>
    show (((PluginManager.stopPlugin st pluginId stopHookError).2.plugins.map
      (fun p => p.1)).Nodup)
    unfold PluginManager.stopPlugin
    split
    · exact h
    · dsimp only []
      split
      · exact keys_setA_nodup _ _ _ h
      · unfold PluginManager.emitStatusChange
        split
        · exact keys_eraseA_nodup _ _ h
        · exact keys_eraseA_nodup _ _ h

/-- stopPlugin with a resolving stop hook always leaves the id unmapped. -/
theorem pm_stop_resolving_removes (st : PluginManager.PMState) (pluginId : String) :
    lookupA (PluginManager.stopPlugin st pluginId none).2.plugins pluginId = none := by
  unfold PluginManager.stopPlugin
  cases hl : lookupA st.plugins pluginId with
  | none => exact hl
  | some p =>
    dsimp only []
    unfold BasePlugin.stop
    by_cases hs : (p.status != PluginStatus.running && p.status != PluginStatus.error) = true
    · rw [if_pos hs]
      dsimp only []
      unfold PluginManager.emitStatusChange
      split
      · exact lookupA_eraseA_self _ _
      · exact lookupA_eraseA_self _ _
    · rw [if_neg hs]
      dsimp only []
      unfold PluginManager.emitStatusChange
      split
      · exact lookupA_eraseA_self _ _
      · exact lookupA_eraseA_self _ _

/-- C8 amended: across any sequence of startPlugin and stopPlugin calls
the running map binds each id at most once; startPlugin is a no-op on
the map (returning ok) when the id is already bound; stopPlugin removes
the runtime whenever the plugin's stop resolves (when the stop hook
throws, the error propagates and the errored runtime stays in the map,
per the counterexample); and a resolving stop followed by a successful
restart leaves exactly one runtime bound to the id. -/
theorem c8_amended_single_runtime_per_id (registeredTypes : List String) :
    (∀ (st : PluginManager.PMState) (ops : List PluginManager.PMOp),
      (st.plugins.map (fun p => p.1)).Nodup →
      ((PluginManager.runPMOps registeredTypes st ops).plugins.map (fun p => p.1)).Nodup) ∧
    (∀ (st : PluginManager.PMState) (config : PluginConfigRow)
      (initHookError startHookError : Option String) (now : Nat),
      (lookupA st.plugins config.id).isSome →
      (PluginManager.startPlugin st config registeredTypes initHookError startHookError now).1
        = Except.ok () ∧
      (PluginManager.startPlugin st config registeredTypes initHookError startHookError
        now).2.plugins = st.plugins) ∧
    (∀ (st : PluginManager.PMState) (pluginId : String),
      lookupA (PluginManager.stopPlugin st pluginId none).2.plugins pluginId = none) ∧
    (∀ (st : PluginManager.PMState) (config : PluginConfigRow) (now : Nat),
      registeredTypes.contains config.type = true →
      ((PluginManager.startPlugin (PluginManager.stopPlugin st config.id none).2 config
          registeredTypes none none now).2.plugins.filter
        (fun p => p.1 == config.id)).length = 1) := by
  refine ⟨?_, ?_, ?_, ?_⟩
  · intro st ops
    induction ops generalizing st with
    | nil => intro h; exact h
    | cons op rest ih =>
      intro h
      exact ih _ (pm_step_keys_nodup registeredTypes st op h)
  · intro st config initHookError startHookError now hsome
    unfold PluginManager.startPlugin
    dsimp only []
    rw [if_pos hsome]
    exact ⟨rfl, rfl⟩
  · intro st pluginId
    exact pm_stop_resolving_removes st pluginId
  · intro st config now hreg
    have hnone := pm_stop_resolving_removes st config.id
    unfold PluginManager.startPlugin
    dsimp only []
    rw [if_neg (by rw [hnone]; simp)]
    simp only [hreg, Bool.not_true, Bool.false_eq_true, if_false, BasePlugin.doInit,
      BasePlugin.start, bne_self_eq_false, Bool.false_and]
    unfold PluginManager.emitStatusChange
    split
    · rw [filter_setA_of_lookupA_none _ _ _ hnone]
      rfl
    · rw [filter_setA_of_lookupA_none _ _ _ hnone]
      rfl

/-- C8 amended witness: stop then restart of a concrete running plugin
yields exactly one bound runtime for the id. -/
theorem c8_amended_single_runtime_per_id_witness :
    ((PluginManager.startPlugin
        (PluginManager.stopPlugin
          ⟨[("p1", ⟨PluginStatus.running, none⟩)], [],
           [⟨"p1", "telegram", "TG", true, "running", none, true⟩], []⟩ "p1" none).2
        ⟨"p1", "telegram", "TG", true, "running", none, true⟩
        ["telegram"] none none 9).2.plugins.filter (fun p => p.1 == "p1")).length = 1 :=
  (c8_amended_single_runtime_per_id ["telegram"]).2.2.2
    ⟨[("p1", ⟨PluginStatus.running, none⟩)], [],
     [⟨"p1", "telegram", "TG", true, "running", none, true⟩], []⟩
    ⟨"p1", "telegram", "TG", true, "running", none, true⟩ 9 (by decide)

/-- C4 witness: a second generation call against a store holding one
live pending request returns the stored pair and the unchanged store. -/
theorem c4_generate_pairing_code_idempotent_witness :
    PairingService.generatePairingCode
        ⟨[⟨"444444", "u4", "telegram", none, 0, 1000, PairingStatus.pending⟩], [], none⟩
        5 ["888888"] "u4" "telegram" none
      = (Except.ok ("444444", 1000),
         ⟨[⟨"444444", "u4", "telegram", none, 0, 1000, PairingStatus.pending⟩], [], none⟩) :=
  (c4_generate_pairing_code_idempotent
    ⟨[⟨"444444", "u4", "telegram", none, 0, 1000, PairingStatus.pending⟩], [], none⟩
    5 ["888888"] "u4" "telegram" none
    ⟨"444444", "u4", "telegram", none, 0, 1000, PairingStatus.pending⟩ (by decide)).1

/-- The written binding is a member of setA. -/
theorem mem_setA_self {α : Type} (l : List (String × α)) (k : String) (v : α) :
    (k, v) ∈ setA l k v := by
  unfold setA
  by_cases hany : l.any (fun p => p.1 == k)
  · rw [if_pos hany]
    rcases List.any_eq_true.1 hany with ⟨p, hp, hpk⟩
    refine List.mem_map.2 ⟨p, hp, ?_⟩
    simp [hpk]
  · rw [if_neg hany]
    exact List.mem_append.2 (Or.inr (List.mem_singleton.2 rfl))

/-- A binding under a different key survives setA. -/
theorem mem_setA_of_mem {α : Type} {l : List (String × α)} {p : String × α} (k : String)
    (v : α) (hp : p ∈ l) (hk : p.1 ≠ k) : p ∈ setA l k v := by
  unfold setA
  by_cases hany : l.any (fun q => q.1 == k)
  · rw [if_pos hany]
    refine List.mem_map.2 ⟨p, hp, ?_⟩
    rw [if_neg (by simpa using hk)]
  · rw [if_neg hany]
    exact List.mem_append.2 (Or.inl hp)

/-- A binding under a different key survives eraseA. -/
theorem mem_eraseA_of_mem {α : Type} {l : List (String × α)} {p : String × α} (k : String)
    (hp : p ∈ l) (hk : p.1 ≠ k) : p ∈ eraseA l k := by
  unfold eraseA
  exact List.mem_filter.2 ⟨hp, by simpa using hk⟩

/-- Upserting a row with an unused id and current timestamps is a plain
append. -/
theorem upsert_fresh_append (rows : List IChannelSession) (s : IChannelSession) (now : Nat)
    (hfresh : ∀ r ∈ rows, r.id ≠ s.id) (hc : s.createdAt = now) (hla : s.lastActivity = now) :
    dbUpsertChannelSession rows s now = rows ++ [s] := by
  unfold dbUpsertChannelSession
  rw [if_neg]
  · have h1 : (if (s.createdAt == 0) = true then now else s.createdAt) = s.createdAt := by
      by_cases h : (s.createdAt == 0) = true <;> simp [h, hc]
    have h2 : (if (s.lastActivity == 0) = true then now else s.lastActivity) = s.lastActivity := by
      by_cases h : (s.lastActivity == 0) = true <;> simp [h, hla]
    rw [h1, h2]
  · intro hc2
    rcases List.any_eq_true.1 hc2 with ⟨r, hr, hrid⟩
    exact hfresh r hr (by simpa using hrid)

/-- createSessionWithConversation preserves the registry invariant when
the drawn uuid is fresh: the delete-then-insert sequence leaves the
cache mirroring a store with one row for the user. -/
theorem sm_create_preserves (st : SessionManager.SMState) (user : IChannelUser)
    (conversationId agentType : String) (workspace : Option String) (freshId : String)
    (now : Nat) (hInv : SessionManager.SMInv st)
    (hfresh : ∀ r ∈ st.dbSessions, r.id ≠ freshId) :
    SessionManager.SMInv
      (SessionManager.createSessionWithConversation st user conversationId agentType workspace
        freshId now).2 := by
  obtain ⟨hck, hdi, hdu, hc2d, hd2c⟩ := hInv
  unfold SessionManager.createSessionWithConversation
  dsimp only []
  set s : IChannelSession :=
    { id := freshId, userId := user.id, agentType := agentType, workspace := workspace,
      conversationId := some conversationId, createdAt := now, lastActivity := now } with hs
  have main : ∀ rows0 : List IChannelSession,
      (∀ r ∈ rows0, r ∈ st.dbSessions) →
      (∀ r ∈ rows0, r.userId ≠ user.id) →
      ((rows0.map (fun r => r.id)).Nodup) →
      ((rows0.map (fun r => r.userId)).Nodup) →
      (∀ p ∈ st.activeSessions, p.1 ≠ user.id → p.2 ∈ rows0) →
      SessionManager.SMInv
        ⟨setA st.activeSessions user.id s, dbUpsertChannelSession rows0 s now⟩ := by
    intro rows0 hsub hnuid hids huids hkeep
    have hfresh0 : ∀ r ∈ rows0, r.id ≠ s.id := fun r hr => hfresh r (hsub r hr)
    rw [upsert_fresh_append rows0 s now hfresh0 rfl rfl]
    refine ⟨keys_setA_nodup _ _ _ hck, ?_, ?_, ?_, ?_⟩
    · rw [List.map_append]
      refine List.Nodup.append hids (List.nodup_singleton _) ?_
      intro a ha hb
      rcases List.mem_map.1 ha with ⟨r, hr, hrid⟩
      have : a = freshId := by simpa using hb
      exact hfresh0 r hr (hrid.trans (this ▸ rfl))
    · rw [List.map_append]
      refine List.Nodup.append huids (List.nodup_singleton _) ?_
      intro a ha hb
      rcases List.mem_map.1 ha with ⟨r, hr, hruid⟩
      have : a = user.id := by simpa using hb
      exact hnuid r hr (hruid.trans this)
    · intro p hp
      rcases mem_setA hp with h | ⟨hpm, hpk⟩
      · rw [h]
        exact ⟨List.mem_append.2 (Or.inr (List.mem_singleton.2 rfl)), rfl⟩
      · obtain ⟨hprow, hpuid⟩ := hc2d p hpm
        exact ⟨List.mem_append.2 (Or.inl (hkeep p hpm (hpuid ▸ hpk))), hpuid⟩
    · intro r hr
      rcases List.mem_append.1 hr with hr0 | hrs
      · exact mem_setA_of_mem user.id s (hd2c r (hsub r hr0)) (hnuid r hr0)
      · have : r = s := List.mem_singleton.1 hrs
        rw [this]
        exact mem_setA_self _ _ _
  cases hl : lookupA st.activeSessions user.id with
  | none =>
    refine main st.dbSessions (fun r hr => hr) ?_ hdi hdu (fun p hp _ => hc2d p hp |>.1)
    intro r hr he
    exact (lookupA_eq_none_iff.1 hl) (r.userId, r) (hd2c r hr) he
  | some ex =>
    have hexmem : (user.id, ex) ∈ st.activeSessions := lookupA_eq_some_mem hl
    obtain ⟨hexrow, hexuid⟩ := hc2d _ hexmem
    refine main (dbDeleteChannelSession st.dbSessions ex.id) ?_ ?_ ?_ ?_ ?_
    · intro r hr
      exact (List.mem_filter.1 hr).1
    · intro r hr he
      obtain ⟨hrm, hrne⟩ := List.mem_filter.1 hr
      have : r = ex := List.inj_on_of_nodup_map hdu hrm hexrow (he.trans hexuid.symm)
      rw [this] at hrne
      simp at hrne
    · exact List.Nodup.sublist (List.Sublist.map _ (List.filter_sublist _)) hdi
    · exact List.Nodup.sublist (List.Sublist.map _ (List.filter_sublist _)) hdu
    · intro p hp hpk
      obtain ⟨hprow, hpuid⟩ := hc2d p hp
      refine List.mem_filter.2 ⟨hprow, ?_⟩
      have : p.2.id ≠ ex.id := by
        intro he
        have : p.2 = ex := List.inj_on_of_nodup_map hdi hprow hexrow he
        exact hpk ((hpuid.symm.trans (congrArg (fun r => r.userId) this)).trans hexuid)
      simpa using this

/-- Removing a cached session and its stored row preserves the registry
invariant. -/
theorem sm_remove_preserves (st : SessionManager.SMState) (userId : String)
    (session : IChannelSession) (hInv : SessionManager.SMInv st)
    (hl : lookupA st.activeSessions userId = some session) :
    SessionManager.SMInv
      ⟨eraseA st.activeSessions userId, dbDeleteChannelSession st.dbSessions session.id⟩ := by
  obtain ⟨hck, hdi, hdu, hc2d, hd2c⟩ := hInv
  have hmem : (userId, session) ∈ st.activeSessions := lookupA_eq_some_mem hl
  obtain ⟨hsrow, hsuid⟩ := hc2d _ hmem
  refine ⟨keys_eraseA_nodup _ _ hck,
    List.Nodup.sublist (List.Sublist.map _ (List.filter_sublist _)) hdi,
    List.Nodup.sublist (List.Sublist.map _ (List.filter_sublist _)) hdu, ?_, ?_⟩
  · intro p hp
    obtain ⟨hpm, hpk⟩ := List.mem_filter.1 hp
    have hpk2 : p.1 ≠ userId := by simpa using hpk
    obtain ⟨hprow, hpuid⟩ := hc2d p hpm
    refine ⟨List.mem_filter.2 ⟨hprow, ?_⟩, hpuid⟩
    have : p.2.id ≠ session.id := by
      intro he
      have : p.2 = session := List.inj_on_of_nodup_map hdi hprow hsrow he
      exact hpk2 ((hpuid.symm.trans (congrArg (fun r => r.userId) this)).trans hsuid)
    simpa using this
  · intro r hr
    obtain ⟨hrm, hrne⟩ := List.mem_filter.1 hr
    have hrne2 : r.id ≠ session.id := by simpa using hrne
    have hruid : r.userId ≠ userId := by
      intro he
      have : r = session := List.inj_on_of_nodup_map hdu hrm hsrow (he.trans hsuid.symm)
      exact hrne2 (congrArg (fun x => x.id) this)
    exact mem_eraseA_of_mem userId (hd2c r hrm) hruid

/-- The delete fold of cleanupStaleSessions filters the store by all the
collected ids. -/
theorem foldl_delete_eq_filter :
    ∀ (l : List (String × IChannelSession)) (rows : List IChannelSession),
      l.foldl (fun rows p => dbDeleteChannelSession rows p.2.id) rows
        = rows.filter (fun r => l.all (fun p => r.id != p.2.id))
  | [], rows => by
    simp [List.all_nil, List.filter_eq_self]
  | p :: l, rows => by
    rw [List.foldl_cons, foldl_delete_eq_filter l _]
    unfold dbDeleteChannelSession
    rw [List.filter_filter]
    refine List.filter_congr (fun r _ => ?_)
    rw [List.all_cons, Bool.and_comm]

/-- cleanupStaleSessions preserves the registry invariant. -/
theorem sm_cleanup_preserves (st : SessionManager.SMState) (maxAgeMs now : Nat)
    (hInv : SessionManager.SMInv st) :
    SessionManager.SMInv (SessionManager.cleanupStaleSessions st maxAgeMs now).2 := by
  obtain ⟨hck, hdi, hdu, hc2d, hd2c⟩ := hInv
  unfold SessionManager.cleanupStaleSessions
  dsimp only []
  rw [foldl_delete_eq_filter]
  refine ⟨List.Nodup.sublist (List.Sublist.map _ (List.filter_sublist _)) hck,
    List.Nodup.sublist (List.Sublist.map _ (List.filter_sublist _)) hdi,
    List.Nodup.sublist (List.Sublist.map _ (List.filter_sublist _)) hdu, ?_, ?_⟩
  · intro p hp
    obtain ⟨hpm, hpf⟩ := List.mem_filter.1 hp
    obtain ⟨hprow, hpuid⟩ := hc2d p hpm
    refine ⟨List.mem_filter.2 ⟨hprow, ?_⟩, hpuid⟩
    rw [List.all_eq_true]
    intro q hq
    obtain ⟨hqm, hqs⟩ := List.mem_filter.1 hq
    obtain ⟨hqrow, _⟩ := hc2d q hqm
    have : p.2.id ≠ q.2.id := by
      intro he
      have he2 : p.2 = q.2 := List.inj_on_of_nodup_map hdi hprow hqrow he
      rw [he2] at hpf
      rw [hqs] at hpf
      simp at hpf
    simpa using this
  · intro r hr
    obtain ⟨hrm, hrall⟩ := List.mem_filter.1 hr
    refine List.mem_filter.2 ⟨hd2c r hrm, ?_⟩
    by_cases hs : (decide (now - r.lastActivity > maxAgeMs)) = true
    · exfalso
      have hst : ((r.userId, r) : String × IChannelSession) ∈
          st.activeSessions.filter (fun p => decide (now - p.2.lastActivity > maxAgeMs)) :=
        List.mem_filter.2 ⟨hd2c r hrm, hs⟩
      have := (List.all_eq_true.1 hrall) _ hst
      simp at this
    · simpa using hs

/-- Every registry operation with fresh uuids preserves the invariant. -/
theorem sm_apply_preserves (st : SessionManager.SMState) (op : SessionManager.SMOp)
    (hInv : SessionManager.SMInv st) (hfresh : SessionManager.opFresh st op) :
    SessionManager.SMInv (SessionManager.applyOp st op) := by
  cases op with
  | createSession user agentType workspace freshConversationId freshId now =>
    exact sm_create_preserves st user freshConversationId agentType workspace freshId now
      hInv hfresh
  | createSessionWithConversation user conversationId agentType workspace freshId now =>
    exact sm_create_preserves st user conversationId agentType workspace freshId now hInv hfresh
  | clearSession userId =>
    show SessionManager.SMInv (SessionManager.clearSession st userId).2
    unfold SessionManager.clearSession
    cases hl : lookupA st.activeSessions userId with
    | none => exact hInv
    | some session => exact sm_remove_preserves st userId session hInv hl
  | clearSessionByConversationId conversationId =>
    show SessionManager.SMInv (SessionManager.clearSessionByConversationId st conversationId).2
    unfold SessionManager.clearSessionByConversationId
    cases hf : st.activeSessions.find? (fun p => p.2.conversationId == some conversationId) with
    | none => exact hInv
    | some p =>
      have hpm := List.mem_of_find?_eq_some hf
      have hl : lookupA st.activeSessions p.1 = some p.2 :=
        lookupA_of_mem_nodup hInv.1 hpm
      exact sm_remove_preserves st p.1 p.2 hInv hl
  | cleanupStaleSessions maxAgeMs now => exact sm_cleanup_preserves st maxAgeMs now hInv

/-- Invariant preservation along a whole run. -/
theorem sm_run_preserves :
    ∀ (ops : List SessionManager.SMOp) (st : SessionManager.SMState),
      SessionManager.SMInv st → SessionManager.opsFresh st ops →
      SessionManager.SMInv (SessionManager.runOps st ops)
  | [], _, hInv, _ => hInv
  | op :: rest, st, hInv, hfresh =>
    sm_run_preserves rest _ (sm_apply_preserves st op hInv hfresh.1) hfresh.2

/-- C3: across any sequence of createSession,
createSessionWithConversation, clearSession, clearSessionByConversationId
and cleanupStaleSessions calls (with fresh uuids, starting from a
consistent state), the registry keeps at most one session row per user
id in the in-memory cache and in the persisted store: the create path
deletes the existing row of the user before inserting the new one. -/
theorem c3_at_most_one_session_per_user (st : SessionManager.SMState)
    (ops : List SessionManager.SMOp) (hInv : SessionManager.SMInv st)
    (hfresh : SessionManager.opsFresh st ops) :
    SessionManager.SMInv (SessionManager.runOps st ops) ∧
    SessionManager.atMostOnePerUser (SessionManager.runOps st ops) := by
  have h := sm_run_preserves ops st hInv hfresh
  exact ⟨h, h.1, h.2.2.1, fun p hp => (h.2.2.2.1 p hp).2⟩

/-- C3 witness: two rapid new-session requests for the same user then a
clear, starting from the empty registry. -/
theorem c3_at_most_one_session_per_user_witness :
    SessionManager.atMostOnePerUser
      (SessionManager.runOps ⟨[], []⟩
        [SessionManager.SMOp.createSessionWithConversation
           ⟨"user1", "42", "telegram", none, 0⟩ "conv1" "gemini" none "sess1" 10,
         SessionManager.SMOp.createSessionWithConversation
           ⟨"user1", "42", "telegram", none, 0⟩ "conv2" "gemini" none "sess2" 11,
         SessionManager.SMOp.cleanupStaleSessions 1000 20]) :=
  (c3_at_most_one_session_per_user ⟨[], []⟩
    [SessionManager.SMOp.createSessionWithConversation
       ⟨"user1", "42", "telegram", none, 0⟩ "conv1" "gemini" none "sess1" 10,
     SessionManager.SMOp.createSessionWithConversation
       ⟨"user1", "42", "telegram", none, 0⟩ "conv2" "gemini" none "sess2" 11,
     SessionManager.SMOp.cleanupStaleSessions 1000 20]
    (by decide) (by decide)).2

/-- Firing a due timer preserves the throttle invariant at the later
clock reading. -/
theorem tinv_fire (st : ActionExecutor.ThrottleState) (now t : Nat)
    (h : ActionExecutor.TInv st now) (hle : now ≤ t) :
    ActionExecutor.TInv (ActionExecutor.fireDueTimer st t) t := by
  obtain ⟨hsp, hlast, hlu, htm⟩ := h
  unfold ActionExecutor.fireDueTimer
  cases hpt : st.pendingTimer with
  | none =>
    refine ⟨hsp, hlast, le_trans hlu hle, ?_⟩
    intro f hf
    rw [hpt] at hf
    cases hf
  | some fireAt =>
    obtain ⟨hfeq, hfgt⟩ := htm fireAt hpt
    dsimp only []
    by_cases hft : fireAt ≤ t
    · rw [if_pos hft]
      cases hpm : st.pendingMessage with
      | some m =>
        unfold ActionExecutor.doEditMessage
        refine ⟨?_, ?_, hft, ?_⟩
        · rw [List.map_append]
          refine List.chain'_append.2 ⟨hsp, List.chain'_singleton _, ?_⟩
          intro x hx y hy
          have hy2 : fireAt = y := by simpa using hy
          rcases hlast with ⟨he, hz⟩ | hgl
          · rw [he] at hx
            simp at hx
          · rw [hgl] at hx
            have hx2 : st.lastUpdateTime = x := by simpa using hx
            rw [← hx2, ← hy2, hfeq]
        · right
          rw [List.map_append]
          exact List.getLast?_concat _
        · intro f hf
          simp at hf
      | none =>
        refine ⟨hsp, hlast, le_trans hlu hle, ?_⟩
        intro f hf
        simp at hf
    · rw [if_neg hft]
      refine ⟨hsp, hlast, le_trans hlu hle, ?_⟩
      intro f hf
      rw [hpt] at hf
      have hf2 : fireAt = f := Option.some_inj.1 hf
      rw [← hf2]
      exact ⟨hfeq, Nat.lt_of_not_le hft⟩

/-- One stream callback preserves the throttle invariant at its clock
reading. -/
theorem tinv_step (st : ActionExecutor.ThrottleState) (now : Nat)
    (e : ActionExecutor.StreamEvent) (h : ActionExecutor.TInv st now) (hle : now ≤ e.time) :
    ActionExecutor.TInv (ActionExecutor.handleStreamEvent st e) e.time := by
  have h1 := tinv_fire st now e.time h hle
  obtain ⟨hsp, hlast, hlu, htm⟩ := h1
  unfold ActionExecutor.handleStreamEvent
  dsimp only []
  split
  · split
    · exact ⟨hsp, hlast, hlu, htm⟩
    · exact ⟨hsp, hlast, hlu, htm⟩
  · split
    · next hwin0 =>
      have hwin : ActionExecutor.UPDATE_THROTTLE_MS ≤
          e.time - (ActionExecutor.fireDueTimer st e.time).lastUpdateTime := hwin0
      unfold ActionExecutor.doEditMessage
      refine ⟨?_, ?_, le_refl _, ?_⟩
      · rw [List.map_append]
        refine List.chain'_append.2 ⟨hsp, List.chain'_singleton _, ?_⟩
        intro x hx y hy
        have hy2 : e.time = y := by simpa using hy
        rcases hlast with ⟨he, hz⟩ | hgl
        · rw [he] at hx
          simp at hx
        · rw [hgl] at hx
          have hx2 : (ActionExecutor.fireDueTimer st e.time).lastUpdateTime = x := by
            simpa using hx
          rw [← hx2, ← hy2]
          omega
      · right
        rw [List.map_append]
        exact List.getLast?_concat _
      · intro f hf
        simp at hf
    · next hwin0 =>
      have hwin : ¬ ActionExecutor.UPDATE_THROTTLE_MS ≤
          e.time - (ActionExecutor.fireDueTimer st e.time).lastUpdateTime := hwin0
      refine ⟨hsp, hlast, hlu, ?_⟩
      intro f hf
      have hf2 : e.time + (ActionExecutor.UPDATE_THROTTLE_MS -
          (e.time - (ActionExecutor.fireDueTimer st e.time).lastUpdateTime)) = f := by
        simpa using hf
      rw [← hf2]
      dsimp only []
      constructor
      · unfold ActionExecutor.UPDATE_THROTTLE_MS at hwin ⊢
        omega
      · unfold ActionExecutor.UPDATE_THROTTLE_MS at hwin ⊢
        omega

/-- The throttle invariant holds after the whole stream, at the last
callback time. -/
theorem tinv_run :
    ∀ (events : List ActionExecutor.StreamEvent) (st : ActionExecutor.ThrottleState) (now : Nat),
      ActionExecutor.TInv st now →
      List.Chain (fun a b => a ≤ b) now (events.map (fun e => e.time)) →
      ActionExecutor.TInv (events.foldl ActionExecutor.handleStreamEvent st)
        ((events.map (fun e => e.time)).getLastD now)
  | [], st, now, h, _ => by simpa using h
  | e :: rest, st, now, h, hch => by
    rw [List.map_cons] at hch
    rw [List.foldl_cons, List.map_cons, List.getLastD_cons]
    have hch2 := (List.chain_cons.1 hch)
    exact tinv_run rest (ActionExecutor.handleStreamEvent st e) e.time
      (tinv_step st now e h hch2.1) hch2.2

/-- The throttle invariant at stream start. -/
theorem tinv_init (thinkingMsgId : String) :
    ActionExecutor.TInv (ActionExecutor.initThrottleState thinkingMsgId) 0 := by
  refine ⟨List.chain'_nil, Or.inl ⟨rfl, rfl⟩, le_refl _, ?_⟩
  intro f hf
  cases hf

/-- Firing a due timer does not change the remembered last content. -/
theorem fireDueTimer_lastContent (st : ActionExecutor.ThrottleState) (t : Nat) :
    (ActionExecutor.fireDueTimer st t).lastMessageContent = st.lastMessageContent := by
  unfold ActionExecutor.fireDueTimer ActionExecutor.doEditMessage
  cases st.pendingTimer with
  | none => rfl
  | some fireAt =>
    dsimp only []
    by_cases hft : fireAt ≤ t
    · rw [if_pos hft]
      cases st.pendingMessage with
      | some m => rfl
      | none => rfl
    · rw [if_neg hft]

/-- Each callback remembers the content it converted. -/
theorem handleStreamEvent_lastContent (st : ActionExecutor.ThrottleState)
    (e : ActionExecutor.StreamEvent) :
    (ActionExecutor.handleStreamEvent st e).lastMessageContent
      = some (ActionExecutor.convertTMessageToOutgoing e.message false) := by
  unfold ActionExecutor.handleStreamEvent ActionExecutor.doEditMessage
  dsimp only []
  by_cases hins : e.isInsert = true
  · rw [if_pos hins]
    by_cases hsf : e.sendFails = true
    · rw [if_pos hsf]
    · rw [if_neg hsf]
  · rw [if_neg hins]
    by_cases hwin : ActionExecutor.UPDATE_THROTTLE_MS ≤
        e.time - (ActionExecutor.fireDueTimer st e.time).lastUpdateTime
    · rw [if_pos hwin]
    · rw [if_neg hwin]

/-- After a non-empty stream the remembered content is the conversion of
the last event. -/
theorem run_lastContent :
    ∀ (events : List ActionExecutor.StreamEvent) (st : ActionExecutor.ThrottleState)
      (h : events ≠ []),
      (events.foldl ActionExecutor.handleStreamEvent st).lastMessageContent
        = some (ActionExecutor.convertTMessageToOutgoing (events.getLast h).message false)
  | [], _, h => absurd rfl h
  | [e], st, _ => by
    rw [List.foldl_cons, List.foldl_nil, handleStreamEvent_lastContent]
    rfl
  | e :: e2 :: rest, st, _ => by
    rw [List.foldl_cons, run_lastContent (e2 :: rest) (ActionExecutor.handleStreamEvent st e)
      (by simp)]
    rw [List.getLast_cons_cons]

/-- The running times of a timed event list are bounded by a bound on
the events. -/
theorem getLastD_time_le (tEnd : Nat) :
    ∀ (l : List ActionExecutor.StreamEvent) (d : Nat), d ≤ tEnd →
      (∀ e ∈ l, e.time ≤ tEnd) → (l.map (fun e => e.time)).getLastD d ≤ tEnd
  | [], _, hd, _ => hd
  | e :: rest, d, _, h => by
    rw [List.map_cons, List.getLastD_cons]
    exact getLastD_time_le tEnd rest e.time (h e (List.mem_cons_self e rest))
      (fun x hx => h x (List.mem_cons_of_mem e hx))

/-- C1: over any monotonically timed stream, the throttled editor spaces
consecutive editMessage calls by at least the 500 ms window, and the
completion edit performed at stream end carries the converted content of
the last received event with the response-action controls attached, even
when that event arrived inside the window. -/
theorem c1_throttled_edits_and_final_content (thinkingMsgId : String)
    (events : List ActionExecutor.StreamEvent) (tEnd : Nat)
    (hmono : List.Chain' (fun a b => a ≤ b) (events.map (fun e => e.time)))
    (hend : ∀ e ∈ events, e.time ≤ tEnd) :
    List.Chain' (fun a b => a + ActionExecutor.UPDATE_THROTTLE_MS ≤ b)
      ((ActionExecutor.handleChatMessageStream thinkingMsgId events tEnd).1.throttledEdits.map
        (fun c => c.time)) ∧
    (∀ h : events ≠ [],
      (ActionExecutor.handleChatMessageStream thinkingMsgId events tEnd).2.message
        = { ActionExecutor.convertTMessageToOutgoing (events.getLast h).message false with
            replyMarkup := some createResponseActionsKeyboard }) ∧
    (ActionExecutor.handleChatMessageStream thinkingMsgId events tEnd).2.time = tEnd := by
  have hch0 : List.Chain (fun a b => a ≤ b) 0 (events.map (fun e => e.time)) := by
    cases hev : events.map (fun e => e.time) with
    | nil => exact List.Chain.nil
    | cons t ts =>
      refine List.Chain.cons (Nat.zero_le t) ?_
      rw [hev] at hmono
      exact hmono
  have hrun := tinv_run events (ActionExecutor.initThrottleState thinkingMsgId) 0
    (tinv_init thinkingMsgId) hch0
  have hendT : ((events.map (fun e => e.time)).getLastD 0) ≤ tEnd :=
    getLastD_time_le tEnd events 0 (Nat.zero_le tEnd) hend
  have hfire := tinv_fire _ _ tEnd hrun hendT
  refine ⟨hfire.1, ?_, rfl⟩
  intro h
  show (ActionExecutor.finishStream
      (ActionExecutor.runStream thinkingMsgId events) tEnd).2.message = _
  unfold ActionExecutor.finishStream
  dsimp only []
  rw [fireDueTimer_lastContent]
  rw [show (ActionExecutor.runStream thinkingMsgId events).lastMessageContent
      = some (ActionExecutor.convertTMessageToOutgoing (events.getLast h).message false)
    from run_lastContent events _ h]

/-- C1 witness: three update events, the last two inside the window, and
a completion shortly after: the throttled edits are 500 ms apart and the
completion edit re-sends the last content with the action keyboard. -/
theorem c1_throttled_edits_and_final_content_witness :
    List.Chain' (fun a b => a + ActionExecutor.UPDATE_THROTTLE_MS ≤ b)
      ((ActionExecutor.handleChatMessageStream "t0"
          [⟨1000, TMessage.text "a", false, false⟩, ⟨1100, TMessage.text "ab", false, false⟩,
           ⟨1200, TMessage.text "abc", false, false⟩] 1300).1.throttledEdits.map
        (fun c => c.time)) ∧
    (ActionExecutor.handleChatMessageStream "t0"
        [⟨1000, TMessage.text "a", false, false⟩, ⟨1100, TMessage.text "ab", false, false⟩,
         ⟨1200, TMessage.text "abc", false, false⟩] 1300).2.message
      = { ActionExecutor.convertTMessageToOutgoing (TMessage.text "abc") false with
          replyMarkup := some createResponseActionsKeyboard } := by
  have h := c1_throttled_edits_and_final_content "t0"
    [⟨1000, TMessage.text "a", false, false⟩, ⟨1100, TMessage.text "ab", false, false⟩,
     ⟨1200, TMessage.text "abc", false, false⟩] 1300
    (by simp [List.chain'_cons, List.chain'_singleton])
    (by intro e he; simp only [List.mem_cons, List.not_mem_nil, or_false] at he
        rcases he with h1 | h1 | h1 <;> rw [h1] <;> decide)
  exact ⟨h.1, h.2.1 (by simp)⟩

end AionUi
